import Mathlib

set_option autoImplicit false

/-!
Verification development for the FreeIPA certificate plugin
(ipaserver/plugins/cert.py and the legacy ipalib/plugins/cert.py).

The Python code is shallowly embedded: Python dicts / OrderedDicts become
association lists, backends (the directory server, the Dogtag RA, the
CA-ACL policy engine, NSS certificate decoding) become explicit function
parameters gathered in environment structures, and exceptions become an
`Except` error type.
-/

namespace FreeIpaCert

instance {ε α : Type} [DecidableEq ε] [DecidableEq α] :
    DecidableEq (Except ε α) := fun x y =>
  match x, y with
  | .error e, .error f => decidable_of_iff (e = f) (by simp)
  | .error _, .ok _ => isFalse (by simp)
  | .ok _, .error _ => isFalse (by simp)
  | .ok a, .ok b => decidable_of_iff (a = b) (by simp)

/-! ### Python dict / collections.OrderedDict as association lists -/

/-- `k in d` for a Python dict modelled as an association list. -/
def dictMem {α β : Type} [DecidableEq α] (d : List (α × β)) (k : α) : Bool :=
  d.any (fun p => p.1 = k)

/-- `d[k]` (as an `Option`) for a Python dict modelled as an association list. -/
def dictFind {α β : Type} [DecidableEq α] (d : List (α × β)) (k : α) : Option β :=
  (d.find? (fun p => p.1 = k)).map Prod.snd

/-- `d[k] = v`: updates in place when the key exists (preserving insertion
order, as Python dicts do), otherwise appends at the end. -/
def dictSet {α β : Type} [DecidableEq α] (d : List (α × β)) (k : α) (v : β) :
    List (α × β) :=
  if dictMem d k then d.map (fun p => if p.1 = k then (k, v) else p)
  else d ++ [(k, v)]

/-- `old.update(upd)` for Python dicts. -/
def dictUpdate {α β : Type} [DecidableEq α] (old upd : List (α × β)) :
    List (α × β) :=
  upd.foldl (fun acc p => dictSet acc p.1 p.2) old

/-- `del d[k]` for Python dicts. -/
def dictDel {α β : Type} [DecidableEq α] (d : List (α × β)) (k : α) :
    List (α × β) :=
  d.filter (fun p => p.1 ≠ k)

/-! ### Errors raised by the certificate plugin (ipalib.errors) -/

inductive Err where
  | notFound
  | aciError
  | validationError
  | certificateOperationError
  | operationNotSupportedForPrincipalType
  | httpError (status : Nat)
  deriving DecidableEq, Repr

/-! ### cert_find: keys, records, and the three sub-search results

A search-result record is keyed by `(issuer DN, serial_number)`
(`cert_find._get_cert_key`).  DNs are kept abstract as strings in their
normalised form; record field values are either strings or lists of
strings (the `owner` field holds a list of DNs). -/

abbrev Key := String × Nat

inductive FVal where
  | s (v : String)
  | l (vs : List String)
  deriving DecidableEq, Repr

abbrev Record := List (String × FVal)

/-- The `(partial_records, truncated, complete)` triple returned by each of
`_cert_search`, `_ca_search` and `_ldap_search`. -/
structure SubResult where
  result : List (Key × Record)
  truncated : Bool
  complete : Bool
  deriving DecidableEq, Repr

/-- The running state of `cert_find.execute`'s merge loop: the ordered
result map, the running `truncated` and `complete` flags, and the
`sizelimit` local variable (reset to `None` once a sub-search is
complete). -/
structure MergeState where
  result : List (Key × Record)
  truncated : Bool
  complete : Bool
  sizelimit : Option Nat
  deriving DecidableEq, Repr

/-- One iteration of the merge loop in `cert_find.execute`
(ipaserver/plugins/cert.py lines 1346-1376): if the sub-search is
complete, drop running keys not confirmed by it and clear `sizelimit`;
then for each key of the sub-result, update the running record in place
when the key is already present, and otherwise add it unless the running
`complete` flag is already set; finally OR the flags. -/
def mergeStep (st : MergeState) (sub : SubResult) : MergeState :=
  let pruned :=
    if sub.complete then st.result.filter (fun p => dictMem sub.result p.1)
    else st.result
  let sizelimit := if sub.complete then none else st.sizelimit
  let merged := sub.result.foldl (fun acc kv =>
      match dictFind acc kv.1 with
      | some obj => dictSet acc kv.1 (dictUpdate obj kv.2)
      | none => if st.complete then acc else acc ++ [kv]) pruned
  { result := merged
    truncated := st.truncated || sub.truncated
    complete := st.complete || sub.complete
    sizelimit := sizelimit }

/-! ### cert_find options -/

/-- The options of `cert_find` that the three sub-searches consume.  Date
values are abstracted to natural numbers (only their presence and identity
matter to the plugin, which forwards them to the backend).  Owner
inclusion/exclusion options (`user`, `no_user`, `host`, ...) are kept as
the slice of the options dict keyed by those names. -/
structure FindOptions where
  certificate : Option String := none
  cacn : Option String := none
  issuer : Option String := none
  subject : Option String := none
  revocation_reason : Option Nat := none
  min_serial_number : Option Nat := none
  max_serial_number : Option Nat := none
  validnotafter_from : Option Nat := none
  validnotafter_to : Option Nat := none
  validnotbefore_from : Option Nat := none
  validnotbefore_to : Option Nat := none
  issuedon_from : Option Nat := none
  issuedon_to : Option Nat := none
  revokedon_from : Option Nat := none
  revokedon_to : Option Nat := none
  exactly : Bool := false
  owner_options : List (String × List String) := []

/-- The query dict handed to `ra.find` by `_ca_search`. -/
structure RaOptions where
  revocation_reason : Option Nat := none
  issuer : Option String := none
  subject : Option String := none
  min_serial_number : Option Nat := none
  max_serial_number : Option Nat := none
  validnotafter_from : Option Nat := none
  validnotafter_to : Option Nat := none
  validnotbefore_from : Option Nat := none
  validnotbefore_to : Option Nat := none
  issuedon_from : Option Nat := none
  issuedon_to : Option Nat := none
  revokedon_from : Option Nat := none
  revokedon_to : Option Nat := none
  sizelimit : Option Nat := none
  exactly : Bool := false
  deriving DecidableEq, Repr

/-- `bool(ra_options)` is false exactly when the dict is empty. -/
def RaOptions.isEmpty (o : RaOptions) : Bool :=
  o.revocation_reason.isNone && o.issuer.isNone && o.subject.isNone &&
  o.min_serial_number.isNone && o.max_serial_number.isNone &&
  o.validnotafter_from.isNone && o.validnotafter_to.isNone &&
  o.validnotbefore_from.isNone && o.validnotbefore_to.isNone &&
  o.issuedon_from.isNone && o.issuedon_to.isNone &&
  o.revokedon_from.isNone && o.revokedon_to.isNone &&
  o.sizelimit.isNone && !o.exactly

/-- `_ca_search`'s construction of `ra_options` from the command options:
each present option of the fixed name tuple is copied over, and
`sizelimit` / `exactly` are added only when truthy (a `None` or `0`
size limit and a false flag are skipped by `if sizelimit:` /
`if exactly:`). -/
def buildRaOptions (opts : FindOptions) (sizelimit : Option Nat) : RaOptions :=
  { revocation_reason := opts.revocation_reason
    issuer := opts.issuer
    subject := opts.subject
    min_serial_number := opts.min_serial_number
    max_serial_number := opts.max_serial_number
    validnotafter_from := opts.validnotafter_from
    validnotafter_to := opts.validnotafter_to
    validnotbefore_from := opts.validnotbefore_from
    validnotbefore_to := opts.validnotbefore_to
    issuedon_from := opts.issuedon_from
    issuedon_to := opts.issuedon_to
    revokedon_from := opts.revokedon_from
    revokedon_to := opts.revokedon_to
    sizelimit := match sizelimit with
      | some n => if n = 0 then none else some n
      | none => none
    exactly := opts.exactly }

/-! ### cert_find environment: the external backends -/

/-- A CA object as returned by `ca_show` / `ca_find`: its name (`cn`), its
subject DN (`ipacasubjectdn`, in normalised form) and its id (`ipacaid`). -/
structure CaObj where
  cn : String
  subject_dn : String
  ca_id : String
  deriving DecidableEq, Repr

/-- One hit returned by the CA backend's `ra.find`: the issuer DN and
serial number (read into the key), the `subject` and `status` fields the
plugin reads explicitly, and the raw result dict `fields`. -/
structure RaHit where
  issuer : String
  serial : Nat
  subject : String
  status : String
  fields : Record
  deriving DecidableEq, Repr

/-- A directory entry returned by `ldap.find_entries` in `_ldap_search`:
its DN and its `usercertificate` / `usercertificate;binary` values. -/
structure LdapEntry where
  dn : String
  usercertificate : List String
  usercertificate_binary : List String
  deriving DecidableEq, Repr

/-- An LDAP filter as assembled by `_ldap_search` from the combinator
`make_filter_from_attr` (with `MATCH_ALL` / `MATCH_NONE` rules), plus the
certificate presence/equality filter.  The final
`combine_filters(filters, MATCH_ALL)` conjunction is represented as the
list of its conjuncts. -/
inductive LdapFilter where
  | attrAllOf (attrName : String) (vals : List String)
  | attrNoneOf (attrName : String) (vals : List String)
  | certEq (val : String)
  | certPresent
  deriving DecidableEq, Repr

/-- An owner object (`api.Object['user' | 'host' | 'service']`) as used by
`cert_find._owners`: its name, its object classes and the name of its
primary key attribute.  The concrete values come from the respective
plugins and are supplied by the environment. -/
structure OwnerDesc where
  name : String
  objectClass : List String
  pkeyName : String
  deriving DecidableEq, Repr

/-- The external collaborators of `cert_find`: NSS certificate decoding
(`_get_cert_key`, reported as `none` on `NSPRError`), the certificate
field extractor `_parse` (`parseFields`), base64 encoding, the CA
backend (`ra.find`, `ra.get_certificate`), the CA registry
(`ca_is_enabled`, `ca_find` / `ca_show`), the directory backend
(`find_entries`, reported as `none` on `EmptyResult`) and the owner
objects with their `_fill_owners` resolution. -/
structure FindEnv where
  caEnabled : Bool
  cas : List CaObj
  raFind : RaOptions → List RaHit
  raGetCert : Nat → Record
  decodeCert : String → Option Key
  parseFields : Bool → Record → Record
  parseFieldsFull : Record → Record
  b64encode : String → String
  ldapFind : List LdapFilter → Option Nat → Option Nat → Option (List LdapEntry × Bool)
  owners : List OwnerDesc
  fillOwners : Record → Record

/-! ### The three sub-searches -/

/-- `cert_find._get_cert_obj`: builds the record for a literal
certificate; drops the raw certificate again unless a full view was
requested. -/
def getCertObj (env : FindEnv) (all raw pkey_only : Bool) (cert : String) :
    Record :=
  let obj : Record := [("certificate", FVal.s (env.b64encode cert))]
  let full := !pkey_only && all
  let obj := if !raw then env.parseFields full obj else obj
  if !full then dictDel obj "certificate" else obj

/-- `cert_find._cert_search` (ipaserver/plugins/cert.py lines 1157-1172):
the inline sub-search.  No certificate option: empty, not truncated, not
complete.  Undecodable certificate: empty, truncated and complete.
Decodable certificate: one record keyed by (issuer, serial), complete. -/
def certSearch (env : FindEnv) (all raw pkey_only : Bool)
    (opts : FindOptions) : SubResult :=
  match opts.certificate with
  | none => ⟨[], false, false⟩
  | some cert =>
    match env.decodeCert cert with
    | none => ⟨[], true, true⟩
    | some key => ⟨[(key, getCertObj env all raw pkey_only cert)], false, true⟩

/-- The record built by `_ca_search` for one `ra.find` hit. -/
def caRecord (env : FindEnv) (all raw pkey_only : Bool) (hit : RaHit)
    (caObj : CaObj) : Record :=
  let obj :=
    if pkey_only then [("serial_number", FVal.s (toString hit.serial))]
    else
      let obj := hit.fields
      let obj := if all then dictUpdate obj (env.raGetCert hit.serial) else obj
      if !raw then
        let obj := dictSet obj "issuer" (FVal.s hit.issuer)
        let obj := dictSet obj "subject" (FVal.s hit.subject)
        let obj := dictSet obj "revoked"
          (FVal.s (toString (hit.status = "REVOKED" ∨ hit.status = "REVOKED_EXPIRED" : Bool)))
        if all then env.parseFieldsFull obj else obj
      else obj
  dictSet obj "cacn" (FVal.s caObj.cn)

/-- `cert_find._ca_search` (ipaserver/plugins/cert.py lines 1174-1242):
builds the backend query options, is complete exactly when that dict is
non-empty, skips (or raises `NotFound`, when a backend filter was given)
if no CA is configured, and keeps only hits whose issuer resolves to a
known CA. -/
def caSearch (env : FindEnv) (all raw pkey_only : Bool)
    (sizelimit : Option Nat) (opts : FindOptions) : Except Err SubResult :=
  let ra_options := buildRaOptions opts sizelimit
  let complete := !ra_options.isEmpty
  if !env.caEnabled then
    if !ra_options.isEmpty then .error .notFound
    else .ok ⟨[], false, complete⟩
  else
    let ca_objs := env.cas.foldl
      (fun d c => dictSet d c.subject_dn c) ([] : List (String × CaObj))
    let result := (env.raFind ra_options).foldl (fun acc hit =>
      match dictFind ca_objs hit.issuer with
      | none => acc
      | some caObj =>
        dictSet acc (hit.issuer, hit.serial)
          (caRecord env all raw pkey_only hit caObj)) []
    .ok ⟨result, false, complete⟩

/-- The owner filter list built by the loop at the top of
`_ldap_search`: for each owner object and each of the prefixes
`''` (MATCH_ALL) and `'no_'` (MATCH_NONE), if the option is present, an
objectclass filter is appended (unless an identical one already is) and
then the primary-key filter. -/
def ownerFilterRule (opts : FindOptions) (owner : OwnerDesc) (pfx : String)
    (mkRule : String → List String → LdapFilter)
    (filters : List LdapFilter) : List LdapFilter :=
  match dictFind opts.owner_options (pfx ++ owner.name) with
  | none => filters
  | some value =>
    let ocFilter := LdapFilter.attrAllOf "objectclass" owner.objectClass
    let filters :=
      if filters.contains ocFilter then filters else filters ++ [ocFilter]
    filters ++ [mkRule owner.pkeyName value]

def ownerFilterStep (opts : FindOptions) (filters : List LdapFilter)
    (owner : OwnerDesc) : List LdapFilter :=
  ownerFilterRule opts owner "no_" LdapFilter.attrNoneOf
    (ownerFilterRule opts owner "" LdapFilter.attrAllOf filters)

def ldapOwnerFilters (env : FindEnv) (opts : FindOptions) : List LdapFilter :=
  env.owners.foldl (ownerFilterStep opts) []

/-- The per-entry record accumulation of `_ldap_search`: each certificate
value of the entry is keyed; undecodable values mark the branch truncated
and are skipped; a fresh record is created on first sight and the entry's
DN is recorded as an owner (unless suppressed). -/
def ldapAccum (env : FindEnv) (all raw pkey_only no_members : Bool)
    (acc : List (Key × Record) × Bool) (entry : LdapEntry) :
    List (Key × Record) × Bool :=
  (entry.usercertificate ++ entry.usercertificate_binary).foldl
    (fun acc cert =>
      match env.decodeCert cert with
      | none => (acc.1, true)
      | some key =>
        let (result, truncated) := acc
        let obj := match dictFind result key with
          | some obj => obj
          | none => getCertObj env all raw pkey_only cert
        let obj :=
          if !pkey_only && (all || !no_members) then
            let owners := match dictFind obj "owner" with
              | some (FVal.l vs) => vs
              | _ => []
            if entry.dn ∈ owners then obj
            else dictSet obj "owner" (FVal.l (owners ++ [entry.dn]))
          else obj
        (dictSet result key obj, truncated)) acc

/-- `cert_find._ldap_search` (ipaserver/plugins/cert.py lines 1244-1324):
the directory sub-search.  Complete exactly when at least one owner
filter was supplied; always adds a certificate presence/equality filter;
`EmptyResult` degrades to an empty, untruncated result. -/
def ldapSearch (env : FindEnv) (all raw pkey_only no_members : Bool)
    (timelimit sizelimit : Option Nat) (opts : FindOptions) : SubResult :=
  let filters := ldapOwnerFilters env opts
  let complete := !filters.isEmpty
  let certFilter := match opts.certificate with
    | some c => LdapFilter.certEq c
    | none => LdapFilter.certPresent
  let filter := filters ++ [certFilter]
  let (entries, truncated) := match env.ldapFind filter timelimit sizelimit with
    | none => ([], false)
    | some (es, tr) => (es, tr)
  let (result, truncated) :=
    entries.foldl (ldapAccum env all raw pkey_only no_members) ([], truncated)
  let result :=
    if !raw then result.map (fun p => (p.1, env.fillOwners p.2)) else result
  ⟨result, truncated, complete⟩

/-! ### cert_find.execute -/

/-- The response dict of `cert_find`. -/
structure FindOut where
  result : List Record
  count : Nat
  truncated : Bool
  deriving DecidableEq, Repr

/-- The merge phase of `cert_find.execute` (lines 1342-1385): the three
sub-searches run in the fixed order inline, CA backend, directory, each
folded into the running state by `mergeStep`; `sizelimit` is threaded
through the state (a complete sub-search clears it for the later ones). -/
def certFindMain (env : FindEnv) (all raw pkey_only no_members : Bool)
    (timelimit sizelimit : Option Nat) (opts : FindOptions) :
    Except Err FindOut :=
  let st0 : MergeState := ⟨[], false, false, sizelimit⟩
  let st1 := mergeStep st0 (certSearch env all raw pkey_only opts)
  match caSearch env all raw pkey_only st1.sizelimit opts with
  | .error e => .error e
  | .ok s2 =>
    let st2 := mergeStep st1 s2
    let st3 := mergeStep st2
      (ldapSearch env all raw pkey_only no_members timelimit st2.sizelimit opts)
    .ok ⟨st3.result.map Prod.snd, st3.result.length, st3.truncated⟩

/-- `cert_find.execute` (ipaserver/plugins/cert.py lines 1326-1385): the
`cacn` vs `issuer` reconciliation, the unsupported free-text `criteria`
short-circuit, then the merge phase. -/
def certFindExecute (env : FindEnv) (criteria : Option String)
    (all raw pkey_only no_members : Bool) (timelimit sizelimit : Option Nat)
    (opts : FindOptions) : Except Err FindOut :=
  let main := fun (opts : FindOptions) =>
    if criteria.isSome then .ok ⟨[], 0, false⟩
    else certFindMain env all raw pkey_only no_members timelimit sizelimit opts
  match opts.cacn with
  | none => main opts
  | some cacn =>
    match env.cas.find? (fun c => c.cn = cacn) with
    | none => .error .notFound
    | some ca_obj =>
      match opts.issuer with
      | some issuer =>
        if ca_obj.subject_dn ≠ issuer then .ok ⟨[], 0, false⟩
        else main opts
      | none => main { opts with issuer := some ca_obj.subject_dn }

/-! ### cert_request: principals, CSRs and the issuance pipeline -/

/-- `USER, HOST, SERVICE = range(3)`. -/
inductive PrincType where
  | user
  | host
  | service
  deriving DecidableEq, Repr

/-- A Kerberos principal (ipapython.kerberos.Principal): user principals
have no service component; `name` is the username for users and the
hostname for host/service principals. -/
structure Principal where
  service_name : Option String
  name : String
  realm : String
  deriving DecidableEq, Repr

/-- `is_user` / `is_host` classification of cert_request.execute: a
principal with no service component is a user, one with service
component `host` is a host, anything else is a service. -/
def Principal.ptype (p : Principal) : PrincType :=
  match p.service_name with
  | none => .user
  | some s => if s = "host" then .host else .service

/-- `unicode(principal)`: the canonical string form. -/
def princStr (p : Principal) : String :=
  (match p.service_name with
   | none => p.name
   | some s => s ++ "/" ++ p.name) ++ "@" ++ p.realm

/-- A subjectAltName general name after `x509.process_othernames`:
recognised otherNames are typed as Kerberos principal names or UPNs, all
remaining types (URI, IP address, ...) fall into `otherName`-like
unrecognised entries handled by the final else branch. -/
inductive GeneralName where
  | dnsName (value : String)
  | krb5PrincipalName (name : String)
  | upn (name : String)
  | rfc822Name (value : String)
  | otherKind (kind : String)
  deriving DecidableEq, Repr

/-- The decoded PKCS#10 request: the subject CN attributes in RDN order,
the subject emailAddress attributes, and the SAN extension (absent when
`ExtensionNotFound`). -/
structure ParsedCsr where
  cns : List String
  emails : List String
  san : Option (List GeneralName)
  deriving DecidableEq, Repr

/-- A directory entry of the owning principal: its DN, its registered
mail addresses, and its cached `usercertificate` values. -/
structure Entry where
  dn : String
  mail : List String
  usercertificate : List String
  deriving DecidableEq, Repr

/-- The result of `ra.request_certificate`. -/
structure RaIssueResult where
  request_id : Nat
  certificate : Option String
  deriving DecidableEq, Repr

/-- A certificate profile as returned by `certprofile_show`:
`storeIssued` is `ipacertprofilestoreissued == 'TRUE'`. -/
structure ProfileObj where
  storeIssued : Bool
  deriving DecidableEq, Repr

/-- The external collaborators of `cert_request.execute`: the CA registry,
the authenticated bind principal, the virtual-operation permission checks
(`check_access`), the CA-ACL policy engine (`acl_evaluate`), PKCS#10
decoding, the `user_show` / `host_show` / `service_show` /`service_add`
commands, the directory write-permission check, the CA backend issuance
call (`.error status` models an `HTTPRequestError`), the profile registry
and the default profile id. -/
structure ReqEnv where
  caEnabled : Bool
  cas : List CaObj
  bindPrincipal : Principal
  hasPermission : String → Bool
  aclEvaluate : PrincType → Principal → String → String → Bool
  loadCsr : String → Option ParsedCsr
  userShow : String → Option Entry
  hostShow : String → Option Entry
  serviceShow : Principal → Option Entry
  serviceAdd : Principal → Entry
  canWrite : String → Bool
  raRequest : Except Nat RaIssueResult
  profileShow : String → Option ProfileObj
  defaultProfile : String

/-- The options of `cert_request`. -/
structure ReqOpts where
  principal : Principal
  add : Bool := false
  cacn : String := "ipa"
  profile_id : Option String := none
  raw : Bool := false

/-- Everything observable about one `cert_request.execute` call: its
terminal outcome (the request id on success), the `acl_evaluate`
invocations made through `caacl_check` in order, whether
`ra.request_certificate` was invoked, and the target principal's entry
after the call (once it has been resolved). -/
structure ReqResult where
  outcome : Except Err Nat
  aclCalls : List (PrincType × Principal)
  raRequested : Bool
  finalEntry : Option Entry
  deriving Repr

/-- The alternate principal derived from a DNSName SAN entry: for a host
principal `host/<name>`, for a service principal
`<service_name>/<name>`, in the primary principal's realm. -/
def altPrincipal (ptype : PrincType) (principal : Principal)
    (name : String) : Principal :=
  match ptype with
  | .host => ⟨some "host", name, principal.realm⟩
  | _ => ⟨principal.service_name, name, principal.realm⟩

/-- The tail of the DNSName arm of the SAN loop, after the alternate
principal has been built and looked up: unknown entries give `NotFound`
(the `except errors.NotFound` conversion), then the write check on the
alternate entry, then the per-alias CA-ACL check unless bypassed. -/
def sanCheckDnsTail (env : ReqEnv) (bypass_caacl : Bool) (ptype : PrincType)
    (alt : Principal) (lookup : Option Entry) (ca profile_id : String) :
    Except Err Unit × List (PrincType × Principal) :=
  match lookup with
  | none => (.error .notFound, [])
  | some alt_obj =>
    if !env.canWrite alt_obj.dn then (.error .aciError, [])
    else if !bypass_caacl then
      (if env.aclEvaluate ptype alt ca profile_id then .ok ()
       else .error .aciError, [(ptype, alt)])
    else (.ok (), [])

/-- Validation of a single SAN general name by the loop in
`cert_request.execute` (ipaserver/plugins/cert.py lines 678-740),
returning the outcome together with the `acl_evaluate` calls it made:
a DNSName is resolved to an alternate host/service principal (forbidden
for users; unknown entries give `NotFound`), needs write permission on
the alternate entry, and is checked against the CA ACLs unless bypassed;
a Kerberos principal name or UPN must equal the primary principal; an
RFC822Name must be one of a user principal's addresses; anything else is
denied. -/
def sanCheckOne (env : ReqEnv) (bypass_caacl : Bool) (ptype : PrincType)
    (principal : Principal) (principal_obj : Entry) (ca profile_id : String)
    (gn : GeneralName) : Except Err Unit × List (PrincType × Principal) :=
  match gn, ptype with
  | .dnsName name, .host =>
    sanCheckDnsTail env bypass_caacl PrincType.host
      (altPrincipal PrincType.host principal name) (env.hostShow name)
      ca profile_id
  | .dnsName name, .service =>
    sanCheckDnsTail env bypass_caacl PrincType.service
      (altPrincipal PrincType.service principal name)
      (env.serviceShow (altPrincipal PrincType.service principal name))
      ca profile_id
  | .dnsName _, .user => (.error .validationError, [])
  | .krb5PrincipalName n, _ =>
    if n ≠ princStr principal then (.error .aciError, []) else (.ok (), [])
  | .upn n, _ =>
    if n ≠ princStr principal then (.error .aciError, []) else (.ok (), [])
  | .rfc822Name v, .user =>
    if v ∉ principal_obj.mail then (.error .validationError, [])
    else (.ok (), [])
  | .rfc822Name _, _ => (.error .validationError, [])
  | .otherKind _, _ => (.error .aciError, [])

/-- The SAN validation loop of `cert_request.execute`, accumulating the
`acl_evaluate` calls made before the first failure. -/
def sanCheckLoop (env : ReqEnv) (bypass_caacl : Bool) (ptype : PrincType)
    (principal : Principal) (principal_obj : Entry) (ca profile_id : String) :
    List GeneralName → Except Err Unit × List (PrincType × Principal)
  | [] => (.ok (), [])
  | gn :: rest =>
    match sanCheckOne env bypass_caacl ptype principal principal_obj
        ca profile_id gn with
    | (.error e, calls) => (.error e, calls)
    | (.ok _, calls) =>
      let r := sanCheckLoop env bypass_caacl ptype principal
        principal_obj ca profile_id rest
      (r.1, calls ++ r.2)

/-- The DNSName values of a SAN general-name list, in order. -/
def dnsNamesOf (gns : List GeneralName) : List String :=
  gns.filterMap (fun gn =>
    match gn with
    | .dnsName n => some n
    | _ => none)

/-- `service_mod` / `host_mod` / `user_mod` with
`addattr=usercertificate=<cert>`: an attribute-level add, appending one
value. -/
def applyAddattr (e : Entry) (cert : String) : Entry :=
  { e with usercertificate := e.usercertificate ++ [cert] }

/-- The principal-entry lookup of `cert_request.execute` (lines 603-630):
`service_show` / `host_show` / `user_show`, with the `add` escape hatch
auto-creating services and rejecting `add` for other principal types
with `OperationNotSupportedForPrincipalType`. -/
def certRequestEntryLookup (env : ReqEnv) (opts : ReqOpts) :
    Except Err Entry :=
  match opts.principal.ptype with
  | .service =>
    match env.serviceShow opts.principal with
    | some e => .ok e
    | none =>
      if opts.add then .ok (env.serviceAdd opts.principal)
      else .error .notFound
  | .host =>
    match env.hostShow opts.principal.name with
    | some e => .ok e
    | none =>
      if opts.add then .error .operationNotSupportedForPrincipalType
      else .error .notFound
  | .user =>
    match env.userShow opts.principal.name with
    | some e => .ok e
    | none =>
      if opts.add then .error .operationNotSupportedForPrincipalType
      else .error .notFound

/-- `str.lower()` on an ASCII hostname/CN, character by character
(structurally, so that concrete instances evaluate). -/
def pyLower (s : String) : String := String.mk (s.data.map Char.toLower)

/-- The CN-vs-principal binding checks of `cert_request.execute`
(lines 632-667): for host/service principals the most-specific CN must
case-insensitively equal the principal hostname (`ACIError` otherwise);
for user principals it must equal the username and every CSR subject
email address must be registered on the entry (`ValidationError`
otherwise). -/
def cnCheck (principal : Principal) (principal_obj : Entry)
    (csr_obj : ParsedCsr) (cn : String) : Option Err :=
  match principal.ptype with
  | .user =>
    if cn ≠ principal.name then some .validationError
    else if csr_obj.emails.any (fun e => e ∉ principal_obj.mail) then
      some .validationError
    else none
  | _ =>
    if pyLower cn ≠ pyLower principal.name then some .aciError else none

/-- The issuance tail of `cert_request.execute` (lines 742-775): the CA
backend call with the 409-to-disabled-CA translation, the profile lookup
and the store-issued step appending the certificate to the owning entry
through an attribute-level add. -/
def certRequestIssuePhase (env : ReqEnv) (profile_id : String)
    (acl : List (PrincType × Principal)) (principal_obj : Entry) :
    ReqResult :=
  match env.raRequest with
  | .error status =>
    if status = 409 then
      ⟨.error .certificateOperationError, acl, true, some principal_obj⟩
    else ⟨.error (.httpError status), acl, true, some principal_obj⟩
  | .ok res =>
    match env.profileShow profile_id with
    | none => ⟨.error .notFound, acl, true, some principal_obj⟩
    | some profile =>
      match res.certificate with
      | some cert =>
        if profile.storeIssued then
          ⟨.ok res.request_id, acl, true,
            some (applyAddattr principal_obj cert)⟩
        else ⟨.ok res.request_id, acl, true, some principal_obj⟩
      | none => ⟨.ok res.request_id, acl, true, some principal_obj⟩

/-- The phase of `cert_request.execute` from the principal-entry lookup
onwards (lines 603-775), given the already-computed bypass flag and acl
calls of the earlier checks: entry resolution, the CN-vs-principal
binding checks, the directory write check, the SAN loop, and the
issuance tail. -/
def certRequestEntryPhase (env : ReqEnv) (opts : ReqOpts)
    (csr_obj : ParsedCsr) (bypass_caacl : Bool)
    (aclPrimary : List (PrincType × Principal)) : ReqResult :=
  let profile_id := opts.profile_id.getD env.defaultProfile
  match certRequestEntryLookup env opts with
  | .error e => ⟨.error e, aclPrimary, false, none⟩
  | .ok principal_obj =>
    match csr_obj.cns.getLast? with
    | none => ⟨.error .validationError, aclPrimary, false, some principal_obj⟩
    | some cn =>
      match cnCheck opts.principal principal_obj csr_obj cn with
      | some e => ⟨.error e, aclPrimary, false, some principal_obj⟩
      | none =>
        if !env.canWrite principal_obj.dn then
          ⟨.error .aciError, aclPrimary, false, some principal_obj⟩
        else
          match sanCheckLoop env bypass_caacl opts.principal.ptype
              opts.principal principal_obj opts.cacn profile_id
              (csr_obj.san.getD []) with
          | (.error e, calls) =>
            ⟨.error e, aclPrimary ++ calls, false, some principal_obj⟩
          | (.ok _, calls) =>
            certRequestIssuePhase env profile_id (aclPrimary ++ calls)
              principal_obj

/-- The self-service-or-host test of `cert_request.execute`: the bind
principal equals the target principal's string form, or the bind
principal is itself a host. -/
def selfOrHostBind (env : ReqEnv) (opts : ReqOpts) : Bool :=
  princStr env.bindPrincipal = princStr opts.principal ||
  env.bindPrincipal.ptype = PrincType.host

/-- `cert_request.execute` (ipaserver/plugins/cert.py lines 523-775):
CA existence check, bind-vs-target access check, CA-ACL bypass
permission, primary CA-ACL evaluation, CSR decoding, SAN permission
check, then the entry phase. -/
def certRequest (env : ReqEnv) (csr : String) (opts : ReqOpts) : ReqResult :=
  if !env.caEnabled then ⟨.error .notFound, [], false, none⟩
  else
    match env.cas.find? (fun c => c.cn = opts.cacn) with
    | none => ⟨.error .notFound, [], false, none⟩
    | some _ =>
      let profile_id := opts.profile_id.getD env.defaultProfile
      if !selfOrHostBind env opts &&
          !env.hasPermission "request certificate" then
        ⟨.error .aciError, [], false, none⟩
      else
        let bypass_caacl :=
          env.hasPermission "request certificate ignore caacl"
        let aclPrimary : List (PrincType × Principal) :=
          if bypass_caacl then []
          else [(opts.principal.ptype, opts.principal)]
        if !bypass_caacl &&
            !env.aclEvaluate opts.principal.ptype opts.principal opts.cacn
              profile_id then
          ⟨.error .aciError, aclPrimary, false, none⟩
        else
          match env.loadCsr csr with
          | none =>
            ⟨.error .certificateOperationError, aclPrimary, false, none⟩
          | some csr_obj =>
            if !selfOrHostBind env opts && csr_obj.san.isSome &&
                !env.hasPermission
                  "request certificate with subjectaltname" then
              ⟨.error .aciError, aclPrimary, false, none⟩
            else
              certRequestEntryPhase env opts csr_obj bypass_caacl aclPrimary

/-! ### Legacy cert_request (ipalib/plugins/cert.py): revoke-then-replace -/

/-- The collaborators of the certificate-handling portion of the legacy
`cert_request.execute` (ipalib/plugins/cert.py lines 309-352):
`x509.get_serial_number` on the cached certificate, whether the CA
implements `get` (`cert_show`) and `revoke` (`cert_revoke`, both guarded
by `except errors.NotImplementedError: pass`), whether `cert_show`
reports a `revocation_reason` for a serial, and the certificate returned
by `ra.request_certificate`, if any. -/
structure LegacyEnv where
  serialOf : String → Nat
  certShowImplemented : Bool
  certRevoked : Nat → Bool
  revokeImplemented : Bool
  raRequestCert : Option String

/-- What the legacy certificate-handling leaves behind: the serials it
revoked and the entry's `usercertificate` values afterwards. -/
structure LegacyResult where
  revokedSerials : List Nat
  finalCerts : List String
  deriving DecidableEq, Repr

/-- The certificate-handling portion of the legacy
`cert_request.execute`: when the entry already caches a certificate, the
old serial is revoked with reason 4 unless already revoked (a CA not
implementing `get` or `revoke` degrades to a no-op) and the
`usercertificate` attribute is cleared (`usercertificate=None`), before
the new certificate is requested and stored as the attribute's single
value (`usercertificate=<cert>`, a full attribute replace). -/
def legacyCertHandling (env : LegacyEnv) (entryCerts : List String) :
    LegacyResult :=
  let (revoked, certs) :=
    match entryCerts with
    | [] => (([] : List Nat), entryCerts)
    | c0 :: _ =>
      let serial := env.serialOf c0
      let revoked :=
        if env.certShowImplemented then
          if !env.certRevoked serial then
            if env.revokeImplemented then [serial] else []
          else []
        else []
      (revoked, ([] : List String))
  match env.raRequestCert with
  | some cert => ⟨revoked, [cert]⟩
  | none => ⟨revoked, certs⟩

/-! ### cert_revoke -/

/-- The collaborators of `cert_revoke.execute`: the CA registry, the
outcome of the `cert_show` existence check for (serial, cacn), the
`revoke certificate` permission (`check_access`), and the
`bind_principal_can_manage_cert` fallback (`none` models the
`NotImplementedError` path of loading the certificate). -/
structure RevokeEnv where
  caEnabled : Bool
  certShowErr : Nat → String → Option Err
  hasPermission : Bool
  bindCanManage : Option Bool

/-- The outcome of a `cert_revoke` call plus the reason passed to
`ra.revoke_certificate`, when it was invoked. -/
structure RevokeResult where
  outcome : Except Err Unit
  backendReason : Option Int
  deriving DecidableEq, Repr

/-- `cert_revoke.execute` (ipaserver/plugins/cert.py lines 958-984):
CA enablement, certificate existence via `cert_show`, the access check
with its bind-principal fallback, the unconditional rejection of
revocation reason 7, then the backend revocation. -/
def certRevokeExecute (env : RevokeEnv) (serial : Nat) (cacn : String)
    (revocation_reason : Int) : RevokeResult :=
  if !env.caEnabled then ⟨.error .notFound, none⟩
  else
    match env.certShowErr serial cacn with
    | some e => ⟨.error e, none⟩
    | none =>
      let accessOk := env.hasPermission ||
        (match env.bindCanManage with
         | some b => b
         | none => false)
      if !accessOk then ⟨.error .aciError, none⟩
      else if revocation_reason = 7 then
        ⟨.error .certificateOperationError, none⟩
      else ⟨.ok (), some revocation_reason⟩

/-- The declared bounds of the `revocation_reason` parameter
(`minvalue=0, maxvalue=10`, ipaserver/plugins/cert.py lines 817-825),
enforced by the parameter framework before `execute` runs. -/
def revocationReasonValid (revocation_reason : Int) : Bool :=
  0 ≤ revocation_reason && revocation_reason ≤ 10

/-- The `cert_revoke` command: parameter validation followed by
`execute`. -/
def certRevokeCommand (env : RevokeEnv) (serial : Nat) (cacn : String)
    (revocation_reason : Int) : RevokeResult :=
  if !revocationReasonValid revocation_reason then
    ⟨.error .validationError, none⟩
  else certRevokeExecute env serial cacn revocation_reason

/-! ### normalize_csr (ipalib/plugins/cert.py lines 130-148) -/

/-- The first index at which `nd` occurs as a substring of `hay`
(Python's `str.find`, with `none` for `-1`). -/
def findSub (nd : List Char) : List Char → Option Nat
  | [] => if nd.isPrefixOf [] then some 0 else none
  | c :: rest =>
    if nd.isPrefixOf (c :: rest) then some 0
    else (findSub nd rest).map (· + 1)

def beginMarkerNew : List Char :=
  "-----BEGIN NEW CERTIFICATE REQUEST-----".toList

def beginMarkerStd : List Char :=
  "-----BEGIN CERTIFICATE REQUEST-----".toList

def endMarkerNew : List Char :=
  "-----END NEW CERTIFICATE REQUEST-----".toList

def endMarkerStd : List Char :=
  "-----END CERTIFICATE REQUEST-----".toList

/-- `normalize_csr`: strip leading and trailing cruft around the first
BEGIN/END block, trying the legacy NEW markers first; `end_len` is 37
for the NEW end marker and 33 for the standard one; when either marker
is missing the input is returned unchanged. -/
def normalize_csr (csr : List Char) : List Char :=
  let s := match findSub beginMarkerNew csr with
    | some i => some i
    | none => findSub beginMarkerStd csr
  let ePair := match findSub endMarkerNew csr with
    | some i => (some i, 37)
    | none =>
      match findSub endMarkerStd csr with
      | some i => (some i, 33)
      | none => (none, 37)
  match s, ePair with
  | some si, (some ei, end_len) => (csr.drop si).take (ei + end_len - si)
  | _, _ => csr

/-- The index list of all occurrences of `nd` as a substring of `hay`
(used to state uniqueness of marker occurrences decidably). -/
def occurIdxs (nd hay : List Char) : List Nat :=
  (List.range (hay.length + 1)).filter (fun j => nd.isPrefixOf (hay.drop j))

/-! ## Concrete instances used in witnesses and counterexamples -/

/-- A search environment whose CA backend returns one record with key
`(CN=CA, 2)` issued by the single known CA, whose inline decoder decodes
the literal certificate `certA` to key `(CN=CA, 1)`, and whose directory
returns nothing. -/
def envFindB : FindEnv :=
  { caEnabled := true
    cas := [⟨"ipa", "CN=CA", "caid1"⟩]
    raFind := fun _ => [⟨"CN=CA", 2, "CN=B", "VALID", [("status", FVal.s "VALID")]⟩]
    raGetCert := fun _ => []
    decodeCert := fun c => if c = "certA" then some ("CN=CA", 1) else none
    parseFields := fun _ r => r
    parseFieldsFull := fun r => r
    b64encode := fun s => s
    ldapFind := fun _ _ _ => none
    owners := [⟨"user", ["posixaccount"], "uid"⟩,
               ⟨"host", ["ipahost"], "fqdn"⟩,
               ⟨"service", ["ipaservice"], "krbprincipalname"⟩]
    fillOwners := fun r => r }

/-- A search environment with empty backends. -/
def envFindEmpty : FindEnv :=
  { envFindB with raFind := fun _ => [] }

/-- The options of the merge counterexample: a literal certificate plus a
CA-side subject filter, so that both the inline and the CA sub-searches
are complete and the CA sub-search contributes a fresh key. -/
def optsCex : FindOptions :=
  { certificate := some "certA", subject := some "CN=B" }

/-- A revocation environment with an enabled CA, an existing certificate
and an authorized caller. -/
def envRevoke : RevokeEnv :=
  { caEnabled := true
    certShowErr := fun _ _ => none
    hasPermission := true
    bindCanManage := none }

/-- The service principal HTTP/web.example@R. -/
def reqPrincipal : Principal := ⟨some "HTTP", "web.example", "R"⟩

/-- A parsed CSR whose CN matches the service hostname and which carries
one DNSName SAN alias. -/
def reqCsrObj : ParsedCsr :=
  ⟨["web.example"], [], some [GeneralName.dnsName "alt.example"]⟩

/-- A request environment in which everything resolves: the CA exists,
the caller holds the plain request permission (but not the CA-ACL
bypass), the policy engine allows everything, the service and its
DNSName alias have entries, and the CA issues request id 42 under a
store profile. -/
def envReq : ReqEnv :=
  { caEnabled := true
    cas := [⟨"ipa", "CN=CA", "caid1"⟩]
    bindPrincipal := ⟨none, "admin", "R"⟩
    hasPermission := fun s =>
      s == "request certificate" ||
      s == "request certificate with subjectaltname"
    aclEvaluate := fun _ _ _ _ => true
    loadCsr := fun _ => some reqCsrObj
    userShow := fun _ => none
    hostShow := fun _ => none
    serviceShow := fun p =>
      if p = reqPrincipal then some ⟨"cn=web,dc=x", [], []⟩
      else if p = ⟨some "HTTP", "alt.example", "R"⟩ then
        some ⟨"cn=alt,dc=x", [], []⟩
      else none
    serviceAdd := fun _ => ⟨"cn=new,dc=x", [], []⟩
    canWrite := fun _ => true
    raRequest := .ok ⟨42, some "NEWCERT"⟩
    profileShow := fun _ => some ⟨true⟩
    defaultProfile := "default" }

/-- The same request environment with every permission granted (so the
CA-ACL bypass permission is held). -/
def envReqBypass : ReqEnv := { envReq with hasPermission := fun _ => true }

/-- The same request environment with a policy engine that denies
everything. -/
def envReqDeny : ReqEnv :=
  { envReq with aclEvaluate := fun _ _ _ _ => false }

/-- Options requesting a certificate for the service principal. -/
def optsReq : ReqOpts := { principal := reqPrincipal, cacn := "ipa" }

/-- The fully-authorized request environment, but with no directory entry
for the DNSName SAN alias. -/
def envReqUnknownAlt : ReqEnv :=
  { envReqBypass with
    serviceShow := fun p =>
      if p = reqPrincipal then some ⟨"cn=web,dc=x", [], []⟩ else none }

/-- The request environment in which the service entry already caches a
certificate. -/
def envReqStore : ReqEnv :=
  { envReq with
    serviceShow := fun p =>
      if p = reqPrincipal then some ⟨"cn=web,dc=x", [], ["OLDCERT"]⟩
      else if p = ⟨some "HTTP", "alt.example", "R"⟩ then
        some ⟨"cn=alt,dc=x", [], []⟩
      else none }

/-- A legacy environment whose CA implements `get` and `revoke`, reports
the cached certificate as not yet revoked, and issues a new
certificate. -/
def lenvDemo : LegacyEnv :=
  { serialOf := fun _ => 7
    certShowImplemented := true
    certRevoked := fun _ => false
    revokeImplemented := true
    raRequestCert := some "NEW" }

/-! ## Lemmas about the dictionary operations and the merge step -/

section DictLemmas

variable {α β : Type} [DecidableEq α]

theorem dictMem_cons (p : α × β) (d : List (α × β)) (k : α) :
    dictMem (p :: d) k = (decide (p.1 = k) || dictMem d k) := rfl

theorem dictMem_iff_find_isSome (d : List (α × β)) (k : α) :
    dictMem d k = (dictFind d k).isSome := by
  induction d with
  | nil => rfl
  | cons p d ih =>
    by_cases h : p.1 = k
    · rw [dictMem_cons, dictFind, List.find?_cons_of_pos _ (by simpa using h)]
      simp [h]
    · rw [dictMem_cons, dictFind, List.find?_cons_of_neg _ (by simpa using h)]
      rw [dictFind] at ih
      simpa [h] using ih

theorem dictMem_map_set (d : List (α × β)) (k : α) (v : β) (k' : α) :
    dictMem (d.map (fun p => if p.1 = k then (k, v) else p)) k' =
      dictMem d k' := by
  induction d with
  | nil => rfl
  | cons p d ih =>
    rw [List.map_cons, dictMem_cons, dictMem_cons, ih]
    by_cases hp : p.1 = k
    · simp [hp]
    · simp [hp]

theorem dictMem_dictSet_of_mem (d : List (α × β)) (k : α) (v : β)
    (h : dictMem d k = true) (k' : α) :
    dictMem (dictSet d k v) k' = dictMem d k' := by
  simp [dictSet, h, dictMem_map_set]

theorem dictMem_append (d e : List (α × β)) (k : α) :
    dictMem (d ++ e) k = (dictMem d k || dictMem e k) := by
  simp [dictMem, List.any_append]

theorem dictMem_filter_mem {γ : Type} (d : List (α × β)) (m : List (α × γ))
    (k : α) :
    dictMem (d.filter (fun p => dictMem m p.1)) k =
      (dictMem d k && dictMem m k) := by
  induction d with
  | nil => simp [dictMem]
  | cons p d ih =>
    by_cases hm : dictMem m p.1 = true
    · rw [List.filter_cons_of_pos (by simpa using hm), dictMem_cons,
        dictMem_cons, ih]
      by_cases hpk : p.1 = k
      · subst hpk
        simp [hm]
      · simp [hpk]
    · rw [List.filter_cons_of_neg (by simpa using hm), dictMem_cons, ih]
      by_cases hpk : p.1 = k
      · subst hpk
        have hm' : dictMem m p.1 = false := by simpa using hm
        simp [hm']
      · simp [hpk]

end DictLemmas

/-- Membership after the key-merging fold of `mergeStep`: a key is
present afterwards iff it was present before, or it belongs to the
sub-result and the running `complete` flag `b` was false. -/
theorem mergeFold_mem (b : Bool) (l acc : List (Key × Record)) (k : Key) :
    dictMem (l.foldl (fun acc kv =>
      match dictFind acc kv.1 with
      | some obj => dictSet acc kv.1 (dictUpdate obj kv.2)
      | none => if b then acc else acc ++ [kv]) acc) k
      = (dictMem acc k || (dictMem l k && !b)) := by
  induction l generalizing acc with
  | nil => simp [dictMem]
  | cons kv l ih =>
    rw [List.foldl_cons, ih]
    have hstep : dictMem
        (match dictFind acc kv.1 with
         | some obj => dictSet acc kv.1 (dictUpdate obj kv.2)
         | none => if b then acc else acc ++ [kv]) k
        = (dictMem acc k || (decide (kv.1 = k) && !b)) := by
      cases hf : dictFind acc kv.1 with
      | some obj =>
        have hmem : dictMem acc kv.1 = true := by
          rw [dictMem_iff_find_isSome, hf]
          rfl
        simp only [hf]
        rw [dictMem_dictSet_of_mem acc kv.1 _ hmem k]
        by_cases hk : kv.1 = k
        · subst hk
          simp [hmem]
        · simp [hk]
      | none =>
        simp only [hf]
        cases b
        · simp [dictMem_append, dictMem_cons, dictMem]
        · simp
    rw [hstep, dictMem_cons]
    cases dictMem acc k <;> cases dictMem l k <;> cases b <;> simp

/-- Membership in the result of one merge iteration of
`cert_find.execute`: a key survives iff it was in the running map and is
not pruned away (pruning applies only when the sub-search is complete
and drops keys the sub-search did not confirm), or it is a key of the
sub-result and the running `complete` flag was still false. -/
theorem mergeStep_mem (st : MergeState) (sub : SubResult) (k : Key) :
    dictMem (mergeStep st sub).result k =
      ((dictMem st.result k && (!sub.complete || dictMem sub.result k)) ||
       (dictMem sub.result k && !st.complete)) := by
  rw [mergeStep]
  simp only []
  rw [mergeFold_mem]
  cases hc : sub.complete
  · simp
  · rw [if_pos rfl, dictMem_filter_mem]
    cases dictMem st.result k <;> cases dictMem sub.result k <;> simp

/-! ## C1: merge order, completeness pruning, truncation OR -/

/-- C1: in every `cert_find` call the three sub-searches are merged in
the fixed order inline, CA backend, directory; whenever a sub-search
reports `complete = true` the running result map is pruned to the
intersection with that sub-search's keys (a running key the sub-search
does not confirm is deleted, a confirmed one survives); and the
`truncated` flag of the final response is the OR of the `truncated`
flags reported by the three sub-searches. -/
theorem cert_find_order_prune_truncated_or
    (env : FindEnv) (all raw pkey_only no_members : Bool)
    (timelimit sizelimit : Option Nat) (opts : FindOptions)
    (s2 : SubResult) (out : FindOut)
    (h2 : caSearch env all raw pkey_only
        (mergeStep ⟨[], false, false, sizelimit⟩
          (certSearch env all raw pkey_only opts)).sizelimit opts = .ok s2)
    (hout : certFindMain env all raw pkey_only no_members timelimit sizelimit
        opts = .ok out) :
    (out.truncated =
      ((certSearch env all raw pkey_only opts).truncated || (s2.truncated ||
        (ldapSearch env all raw pkey_only no_members timelimit
          (mergeStep (mergeStep ⟨[], false, false, sizelimit⟩
            (certSearch env all raw pkey_only opts)) s2).sizelimit
          opts).truncated))) ∧
    (∀ st sub k, sub.complete = true → dictMem sub.result k = false →
      dictMem (mergeStep st sub).result k = false) ∧
    (∀ st sub k, sub.complete = true → dictMem st.result k = true →
      dictMem sub.result k = true →
      dictMem (mergeStep st sub).result k = true) := by
  refine ⟨?_, ?_, ?_⟩
  · rw [certFindMain] at hout
    simp only [] at hout
    rw [h2] at hout
    simp only [] at hout
    injection hout with h
    subst h
    simp [mergeStep, Bool.or_assoc]
  · intro st sub k hc hm
    rw [mergeStep_mem, hc, hm]
    simp
  · intro st sub k hc hst hsub
    rw [mergeStep_mem, hc, hst, hsub]
    simp

theorem cert_find_order_prune_truncated_or_witness :
    ((false : Bool) =
      ((certSearch envFindEmpty false false false {}).truncated || (false ||
        (ldapSearch envFindEmpty false false false true none
          (mergeStep (mergeStep ⟨[], false, false, none⟩
            (certSearch envFindEmpty false false false {}))
            ⟨[], false, false⟩).sizelimit
          {}).truncated))) ∧
    dictMem (mergeStep ⟨[(("CN=CA", 1), [])], false, false, none⟩
      ⟨[(("CN=CA", 2), [])], false, true⟩).result ("CN=CA", 1) = false ∧
    dictMem (mergeStep ⟨[(("CN=CA", 1), [])], false, false, none⟩
      ⟨[(("CN=CA", 1), [])], false, true⟩).result ("CN=CA", 1) = true := by
  have h := cert_find_order_prune_truncated_or envFindEmpty false false false
    true none none {} ⟨[], false, false⟩ ⟨[], 0, false⟩ (by decide) (by decide)
  exact ⟨h.1, h.2.1 _ _ _ (by decide) (by decide),
    h.2.2 _ _ _ (by decide) (by decide) (by decide)⟩

/-! ## C2: adding fresh keys during the merge -/

/-- C2 counterexample: with a literal certificate (inline sub-search
complete, key `(CN=CA, 1)`) and a CA subject filter (CA sub-search
complete, fresh key `(CN=CA, 2)`), the final result of the merge is
empty: the fresh key of the complete CA sub-search was *not* added,
because the running `complete` flag set by the inline sub-search
suppresses additions regardless of the current sub-search's own
completeness — the claim would have predicted `(CN=CA, 2)` in the
result. -/
theorem cert_find_merge_new_key_counterexample :
    certSearch envFindB false false false optsCex =
      ⟨[(("CN=CA", 1), [])], false, true⟩ ∧
    caSearch envFindB false false false none optsCex =
      .ok ⟨[(("CN=CA", 2),
        [("status", FVal.s "VALID"), ("issuer", FVal.s "CN=CA"),
         ("subject", FVal.s "CN=B"), ("revoked", FVal.s "false"),
         ("cacn", FVal.s "ipa")])], false, true⟩ ∧
    certFindMain envFindB false false false true none none optsCex =
      .ok ⟨[], 0, false⟩ := by
  exact ⟨by decide, by decide, by decide⟩

/-- C2 (amended): in `cert_find`'s merge, a key of the current
sub-search's result that is not yet in the running map is added iff the
running `complete` flag (the OR of the completeness flags of the
sub-searches processed so far) is still false; when it is already true
the key is skipped even if the current sub-search is itself complete. -/
theorem cert_find_merge_new_key_rule (st : MergeState) (sub : SubResult)
    (k : Key) (h1 : dictMem sub.result k = true)
    (h2 : dictMem st.result k = false) :
    dictMem (mergeStep st sub).result k = !st.complete := by
  rw [mergeStep_mem, h1, h2]
  cases st.complete <;> simp

theorem cert_find_merge_new_key_rule_witness :
    dictMem (mergeStep ⟨[], false, true, none⟩
      ⟨[(("CN=CA", 2), [])], false, true⟩).result ("CN=CA", 2) = false := by
  have h := cert_find_merge_new_key_rule ⟨[], false, true, none⟩
    ⟨[(("CN=CA", 2), [])], false, true⟩ ("CN=CA", 2) (by decide) (by decide)
  simpa using h

/-! ## C3: completeness of the inline sub-search -/

/-- C3 counterexample: the inline sub-search reports `complete = true`
when literal certificate bytes are supplied — both when they decode
(first conjunct) and when decoding fails (second conjunct, which is also
`complete = true`, not false as claimed). -/
theorem cert_search_complete_counterexample :
    (certSearch envFindB false false false
      { certificate := some "certA" }).complete = true ∧
    certSearch envFindB false false false { certificate := some "nope" } =
      ⟨[], true, true⟩ := by
  exact ⟨by decide, by decide⟩

/-- C3 (amended): `_cert_search` reports `complete = true` whenever
literal certificate bytes were supplied: a decodable certificate yields
exactly one record keyed by (issuer DN, serial number) with
`truncated = false`; a decoding failure yields an empty map with
`truncated = true` rather than an error; and only when no certificate
bytes are supplied does it yield an empty map with `truncated = false`
and `complete = false`. -/
theorem cert_search_cases (env : FindEnv) (all raw pkey_only : Bool)
    (opts : FindOptions) :
    (opts.certificate = none →
      certSearch env all raw pkey_only opts = ⟨[], false, false⟩) ∧
    (∀ c, opts.certificate = some c → env.decodeCert c = none →
      certSearch env all raw pkey_only opts = ⟨[], true, true⟩) ∧
    (∀ c key, opts.certificate = some c → env.decodeCert c = some key →
      certSearch env all raw pkey_only opts =
        ⟨[(key, getCertObj env all raw pkey_only c)], false, true⟩) := by
  refine ⟨fun h => ?_, fun c hc hd => ?_, fun c key hc hd => ?_⟩
  · simp [certSearch, h]
  · simp [certSearch, hc, hd]
  · simp [certSearch, hc, hd]

theorem cert_search_cases_witness :
    certSearch envFindB false false false {} = ⟨[], false, false⟩ ∧
    certSearch envFindB false false false { certificate := some "nope" } =
      ⟨[], true, true⟩ ∧
    certSearch envFindB false false false { certificate := some "certA" } =
      ⟨[(("CN=CA", 1), getCertObj envFindB false false false "certA")],
        false, true⟩ := by
  refine ⟨(cert_search_cases envFindB false false false {}).1 rfl,
    (cert_search_cases envFindB false false false _).2.1 "nope" rfl
      (by decide),
    (cert_search_cases envFindB false false false _).2.2 "certA" ("CN=CA", 1)
      rfl (by decide)⟩

/-! ## C8: a search with no criteria at all -/

/-- The completeness flag of a successful `_ca_search` is exactly the
non-emptiness of the backend query options. -/
theorem caSearch_ok_complete (env : FindEnv) (all raw pkey_only : Bool)
    (sizelimit : Option Nat) (opts : FindOptions) (s : SubResult)
    (h : caSearch env all raw pkey_only sizelimit opts = .ok s) :
    s.complete = !(buildRaOptions opts sizelimit).isEmpty := by
  simp only [caSearch] at h
  cases hca : env.caEnabled
  · rw [hca] at h
    cases he : (buildRaOptions opts sizelimit).isEmpty
    · rw [he] at h
      simp at h
    · rw [he] at h
      simp at h
      rw [← h]
      rfl
  · rw [hca] at h
    simp at h
    rw [← h]

/-- With no owner options, the owner filter loop of `_ldap_search`
contributes nothing. -/
theorem ldapOwnerFilters_no_options (env : FindEnv) (opts : FindOptions)
    (h : opts.owner_options = []) : ldapOwnerFilters env opts = [] := by
  have hstep : ∀ (filters : List LdapFilter) (owner : OwnerDesc),
      ownerFilterStep opts filters owner = filters := by
    intro filters owner
    simp [ownerFilterStep, ownerFilterRule, h, dictFind]
  rw [ldapOwnerFilters]
  generalize env.owners = l
  induction l with
  | nil => rfl
  | cons o l ih => rw [List.foldl_cons, hstep]; exact ih

/-- C8 counterexample: a `cert_find` call with no criteria at all, against
a configured CA whose backend holds one certificate, returns that
certificate (count 1), not an empty result: the unfiltered CA search ran
and dumped the store's contents. -/
theorem cert_find_no_criteria_counterexample :
    certFindExecute envFindB none false false false true none none {} =
      .ok ⟨[[("status", FVal.s "VALID"), ("issuer", FVal.s "CN=CA"),
             ("subject", FVal.s "CN=B"), ("revoked", FVal.s "false"),
             ("cacn", FVal.s "ipa")]], 1, false⟩ := by
  decide

/-- C8 (amended): with no criteria at all the three sub-searches indeed
all report `complete = false`, but the response is not empty in general:
it is the merge of whatever the unfiltered CA-backend query and the
unfiltered directory query (over entries with any `usercertificate`)
return — its key set is exactly the union of the two backends' key
sets. -/
theorem cert_find_no_criteria (env : FindEnv)
    (all raw pkey_only no_members : Bool) (timelimit : Option Nat)
    (s2 : SubResult)
    (h2 : caSearch env all raw pkey_only none {} = .ok s2) :
    certSearch env all raw pkey_only {} = ⟨[], false, false⟩ ∧
    s2.complete = false ∧
    (ldapSearch env all raw pkey_only no_members timelimit none {}).complete
      = false ∧
    ∀ out, certFindExecute env none all raw pkey_only no_members timelimit
        none {} = .ok out →
      out.count =
        (mergeStep (mergeStep (mergeStep ⟨[], false, false, none⟩
          (certSearch env all raw pkey_only {})) s2)
          (ldapSearch env all raw pkey_only no_members timelimit none
            {})).result.length ∧
      ∀ k, dictMem
        (mergeStep (mergeStep (mergeStep ⟨[], false, false, none⟩
          (certSearch env all raw pkey_only {})) s2)
          (ldapSearch env all raw pkey_only no_members timelimit none
            {})).result k
        = (dictMem s2.result k ||
           dictMem (ldapSearch env all raw pkey_only no_members timelimit
             none {}).result k) := by
  have hs1 : certSearch env all raw pkey_only {} = ⟨[], false, false⟩ := rfl
  have hs2c : s2.complete = false := by
    rw [caSearch_ok_complete env all raw pkey_only none {} s2 h2]
    decide
  have hs3c : (ldapSearch env all raw pkey_only no_members timelimit none
      {}).complete = false := by
    simp only [ldapSearch]
    rw [ldapOwnerFilters_no_options env {} rfl]
    rfl
  refine ⟨hs1, hs2c, hs3c, fun out hout => ?_⟩
  rw [certFindExecute] at hout
  simp only [Option.isSome_none] at hout
  rw [certFindMain] at hout
  simp only [] at hout
  rw [hs1] at hout
  have hsl : (mergeStep ⟨[], false, false, none⟩
      (⟨[], false, false⟩ : SubResult)).sizelimit = none := rfl
  rw [hsl] at hout
  rw [h2] at hout
  simp only [] at hout
  have hsl2 : (mergeStep (mergeStep ⟨[], false, false, none⟩
      (⟨[], false, false⟩ : SubResult)) s2).sizelimit = none := by
    simp [mergeStep]
  rw [hsl2] at hout
  rw [hs1]
  injection hout with h
  subst h
  refine ⟨rfl, fun k => ?_⟩
  rw [mergeStep_mem, mergeStep_mem, mergeStep_mem]
  have hmem : dictMem ([] : List (Key × Record)) k = false := rfl
  rw [hmem]
  simp only [hs2c, hs3c]
  have hc1 : (mergeStep ⟨[], false, false, none⟩
      (⟨[], false, false⟩ : SubResult)).complete = false := rfl
  rw [hc1]
  have hc2 : (mergeStep (mergeStep ⟨[], false, false, none⟩
      (⟨[], false, false⟩ : SubResult)) s2).complete = s2.complete := by
    simp [mergeStep]
  rw [hc2, hs2c]
  cases dictMem s2.result k <;>
    cases dictMem (ldapSearch env all raw pkey_only no_members timelimit
      none {}).result k <;> simp

theorem cert_find_no_criteria_witness :
    certSearch envFindEmpty false false false {} = ⟨[], false, false⟩ ∧
    SubResult.complete ⟨[], false, false⟩ = false ∧
    (ldapSearch envFindEmpty false false false true none none {}).complete
      = false ∧
    ∀ out, certFindExecute envFindEmpty none false false false true none
        none {} = .ok out →
      out.count =
        (mergeStep (mergeStep (mergeStep ⟨[], false, false, none⟩
          (certSearch envFindEmpty false false false {})) ⟨[], false, false⟩)
          (ldapSearch envFindEmpty false false false true none none
            {})).result.length ∧
      ∀ k, dictMem
        (mergeStep (mergeStep (mergeStep ⟨[], false, false, none⟩
          (certSearch envFindEmpty false false false {})) ⟨[], false, false⟩)
          (ldapSearch envFindEmpty false false false true none none
            {})).result k
        = (dictMem (SubResult.result ⟨[], false, false⟩) k ||
           dictMem (ldapSearch envFindEmpty false false false true none
             none {}).result k) :=
  cert_find_no_criteria envFindEmpty false false false true none
    ⟨[], false, false⟩ (by decide)

/-! ## C10: cacn vs issuer reconciliation -/

/-- C10: when `cert_find` is given both a CA name and an issuer DN and
the named CA's subject DN differs from the supplied issuer, the command
returns `{result: [], count: 0, truncated: false}` immediately — for
every environment, so in particular without consulting any of the three
sub-searches or their backends; when they are equal the search proceeds
unchanged; and when only the CA name is supplied the issuer option is
set to that CA's subject DN. -/
theorem cert_find_cacn_issuer (env : FindEnv) (criteria : Option String)
    (all raw pkey_only no_members : Bool) (timelimit sizelimit : Option Nat)
    (opts : FindOptions) (cacn : String) (ca_obj : CaObj)
    (hc : opts.cacn = some cacn)
    (hfind : env.cas.find? (fun c => c.cn = cacn) = some ca_obj) :
    (∀ issuer, opts.issuer = some issuer → ca_obj.subject_dn ≠ issuer →
      certFindExecute env criteria all raw pkey_only no_members timelimit
        sizelimit opts = .ok ⟨[], 0, false⟩) ∧
    (∀ issuer, opts.issuer = some issuer → ca_obj.subject_dn = issuer →
      criteria = none →
      certFindExecute env criteria all raw pkey_only no_members timelimit
        sizelimit opts =
        certFindMain env all raw pkey_only no_members timelimit sizelimit
          opts) ∧
    (opts.issuer = none → criteria = none →
      certFindExecute env criteria all raw pkey_only no_members timelimit
        sizelimit opts =
        certFindMain env all raw pkey_only no_members timelimit sizelimit
          { opts with issuer := some ca_obj.subject_dn }) := by
  refine ⟨fun issuer hi hne => ?_, fun issuer hi he hcrit => ?_,
    fun hi hcrit => ?_⟩
  · simp [certFindExecute, hc, hfind, hi, hne]
  · simp [certFindExecute, hc, hfind, hi, he, hcrit]
  · simp [certFindExecute, hc, hfind, hi, hcrit]

theorem cert_find_cacn_issuer_witness :
    certFindExecute envFindB none false false false true none none
      { cacn := some "ipa", issuer := some "CN=OTHER" } =
      .ok ⟨[], 0, false⟩ ∧
    certFindExecute envFindB none false false false true none none
      { cacn := some "ipa", issuer := some "CN=CA" } =
      certFindMain envFindB false false false true none none
        { cacn := some "ipa", issuer := some "CN=CA" } ∧
    certFindExecute envFindB none false false false true none none
      { cacn := some "ipa" } =
      certFindMain envFindB false false false true none none
        { ({ cacn := some "ipa" } : FindOptions) with
          issuer := some (CaObj.subject_dn ⟨"ipa", "CN=CA", "caid1"⟩) } := by
  refine ⟨?_, ?_, ?_⟩
  · exact (cert_find_cacn_issuer envFindB none false false false true none
      none { cacn := some "ipa", issuer := some "CN=OTHER" } "ipa"
      ⟨"ipa", "CN=CA", "caid1"⟩ rfl (by decide)).1 "CN=OTHER" rfl (by decide)
  · exact (cert_find_cacn_issuer envFindB none false false false true none
      none { cacn := some "ipa", issuer := some "CN=CA" } "ipa"
      ⟨"ipa", "CN=CA", "caid1"⟩ rfl (by decide)).2.1 "CN=CA" rfl (by decide)
      rfl
  · exact (cert_find_cacn_issuer envFindB none false false false true none
      none { cacn := some "ipa" } "ipa"
      ⟨"ipa", "CN=CA", "caid1"⟩ rfl (by decide)).2.2 rfl rfl

/-! ## C7: revocation reason handling in cert_revoke -/

/-- C7: `cert_revoke` never lets revocation reason 7 through for any
caller — whatever the permission state, a call with reason 7 never
succeeds and never reaches the backend, and a caller that passes the
existence and access checks receives the dedicated
`CertificateOperationError`; every reason in 0-10 other than 7 is
accepted when the caller is authorized (the backend is invoked with that
reason); and values outside 0-10 are rejected by the parameter's
`minvalue`/`maxvalue` validation. -/
theorem cert_revoke_reason_rules (env : RevokeEnv) (serial : Nat)
    (cacn : String) :
    ((certRevokeCommand env serial cacn 7).backendReason = none ∧
     ∀ u, (certRevokeCommand env serial cacn 7).outcome ≠ .ok u) ∧
    (env.caEnabled = true → env.certShowErr serial cacn = none →
      env.hasPermission = true →
      certRevokeCommand env serial cacn 7 =
        ⟨.error .certificateOperationError, none⟩) ∧
    (∀ r : Int, env.caEnabled = true → env.certShowErr serial cacn = none →
      env.hasPermission = true → 0 ≤ r → r ≤ 10 → r ≠ 7 →
      certRevokeCommand env serial cacn r = ⟨.ok (), some r⟩) ∧
    (∀ r : Int, (r < 0 ∨ 10 < r) →
      certRevokeCommand env serial cacn r =
        ⟨.error .validationError, none⟩) := by
  have hv : revocationReasonValid 7 = true := by decide
  refine ⟨?_, fun hca hcs hp => ?_, fun r hca hcs hp h0 h10 h7 => ?_,
    fun r hr => ?_⟩
  · rw [certRevokeCommand, hv]
    simp only [Bool.not_true, Bool.false_eq_true, if_false]
    rw [certRevokeExecute]
    cases hca : env.caEnabled
    · simp
    · simp only [Bool.not_true, Bool.false_eq_true, if_false]
      cases hs : env.certShowErr serial cacn
      · simp only []
        by_cases hacc : (env.hasPermission ||
            (match env.bindCanManage with
             | some b => b
             | none => false)) = true
        · simp [hacc]
        · simp [Bool.not_eq_true] at hacc
          simp [hacc]
      · simp
  · have hvr : revocationReasonValid 7 = true := hv
    simp [certRevokeCommand, certRevokeExecute, hca, hcs, hp, hvr]
  · have hvr : revocationReasonValid r = true := by
      simp only [revocationReasonValid]
      simp [h0, h10]
    simp [certRevokeCommand, certRevokeExecute, hca, hcs, hp, hvr, h7]
  · have hvr : revocationReasonValid r = false := by
      simp only [revocationReasonValid]
      rcases hr with hr | hr
      · simp [not_le.mpr hr]
      · simp [not_le.mpr hr]
    simp [certRevokeCommand, hvr]

theorem cert_revoke_reason_rules_witness :
    ((certRevokeCommand envRevoke 9 "ipa" 7).backendReason = none ∧
     ∀ u, (certRevokeCommand envRevoke 9 "ipa" 7).outcome ≠ .ok u) ∧
    certRevokeCommand envRevoke 9 "ipa" 7 =
      ⟨.error .certificateOperationError, none⟩ ∧
    certRevokeCommand envRevoke 9 "ipa" 5 = ⟨.ok (), some 5⟩ ∧
    certRevokeCommand envRevoke 9 "ipa" 11 =
      ⟨.error .validationError, none⟩ := by
  have h := cert_revoke_reason_rules envRevoke 9 "ipa"
  exact ⟨h.1, h.2.1 rfl rfl rfl,
    h.2.2.1 5 rfl rfl rfl (by norm_num) (by norm_num) (by norm_num),
    h.2.2.2 11 (Or.inr (by norm_num))⟩

/-! ## Lemmas about the SAN validation loop of cert_request -/

theorem sanCheckDnsTail_bypass_calls (env : ReqEnv) (ptype : PrincType)
    (alt : Principal) (lookup : Option Entry) (ca profile_id : String) :
    (sanCheckDnsTail env true ptype alt lookup ca profile_id).2 = [] := by
  cases lookup with
  | none => rfl
  | some alt_obj =>
    simp only [sanCheckDnsTail]
    split
    · rfl
    · rfl

theorem sanCheckDnsTail_ok_calls (env : ReqEnv) (ptype : PrincType)
    (alt : Principal) (lookup : Option Entry) (ca profile_id : String)
    (h : (sanCheckDnsTail env false ptype alt lookup ca profile_id).1
      = .ok ()) :
    (sanCheckDnsTail env false ptype alt lookup ca profile_id).2
      = [(ptype, alt)] := by
  cases lookup with
  | none => exact absurd h (by simp [sanCheckDnsTail])
  | some alt_obj =>
    simp only [sanCheckDnsTail] at h ⊢
    by_cases hw : env.canWrite alt_obj.dn
    · simp [hw]
    · simp only [Bool.not_eq_true] at hw
      rw [hw] at h
      exact absurd h (by simp)

theorem sanCheckDnsTail_false_call (env : ReqEnv) (b : Bool)
    (ptype : PrincType) (alt : Principal) (lookup : Option Entry)
    (ca profile_id : String) (c : PrincType × Principal)
    (hc : c ∈ (sanCheckDnsTail env b ptype alt lookup ca profile_id).2)
    (hf : env.aclEvaluate c.1 c.2 ca profile_id = false) :
    (sanCheckDnsTail env b ptype alt lookup ca profile_id).1
      = .error .aciError := by
  cases lookup with
  | none => exact absurd hc (by simp [sanCheckDnsTail])
  | some alt_obj =>
    simp only [sanCheckDnsTail] at hc ⊢
    by_cases hw : env.canWrite alt_obj.dn
    · simp only [hw, Bool.not_true, Bool.false_eq_true, if_false] at hc ⊢
      cases b
      · simp only [Bool.not_false, if_true] at hc ⊢
        simp only [List.mem_singleton] at hc
        subst hc
        simp [hf]
      · simp at hc
    · simp only [Bool.not_eq_true] at hw
      rw [hw] at hc
      simp at hc

theorem sanCheckOne_bypass_calls (env : ReqEnv) (ptype : PrincType)
    (principal : Principal) (principal_obj : Entry) (ca profile_id : String)
    (gn : GeneralName) :
    (sanCheckOne env true ptype principal principal_obj ca profile_id gn).2
      = [] := by
  cases gn with
  | dnsName name =>
    cases ptype
    · rfl
    · exact sanCheckDnsTail_bypass_calls env PrincType.host
        (altPrincipal PrincType.host principal name) (env.hostShow name)
        ca profile_id
    · exact sanCheckDnsTail_bypass_calls env PrincType.service
        (altPrincipal PrincType.service principal name)
        (env.serviceShow (altPrincipal PrincType.service principal name))
        ca profile_id
  | krb5PrincipalName n =>
    simp only [sanCheckOne]
    split
    · rfl
    · rfl
  | upn n =>
    simp only [sanCheckOne]
    split
    · rfl
    · rfl
  | rfc822Name v =>
    cases ptype
    · simp only [sanCheckOne]
      split
      · rfl
      · rfl
    · rfl
    · rfl
  | otherKind k => rfl

theorem sanCheckLoop_bypass_calls (env : ReqEnv) (ptype : PrincType)
    (principal : Principal) (principal_obj : Entry) (ca profile_id : String)
    (gns : List GeneralName) :
    (sanCheckLoop env true ptype principal principal_obj ca profile_id
      gns).2 = [] := by
  induction gns with
  | nil => rfl
  | cons gn rest ih =>
    rw [sanCheckLoop]
    have h1 := sanCheckOne_bypass_calls env ptype principal principal_obj
      ca profile_id gn
    cases hone : sanCheckOne env true ptype principal principal_obj
        ca profile_id gn with
    | mk r calls =>
      rw [hone] at h1
      simp only [] at h1
      subst h1
      cases r with
      | error e => rfl
      | ok u => cases u; simp [ih]

theorem sanCheckOne_ok_calls (env : ReqEnv) (ptype : PrincType)
    (principal : Principal) (principal_obj : Entry) (ca profile_id : String)
    (gn : GeneralName)
    (h : (sanCheckOne env false ptype principal principal_obj ca profile_id
      gn).1 = .ok ()) :
    (sanCheckOne env false ptype principal principal_obj ca profile_id gn).2
      = (dnsNamesOf [gn]).map
          (fun n => (ptype, altPrincipal ptype principal n)) := by
  cases gn with
  | dnsName name =>
    cases ptype
    · exact absurd h (by simp [sanCheckOne])
    · exact sanCheckDnsTail_ok_calls env PrincType.host
        (altPrincipal PrincType.host principal name) (env.hostShow name)
        ca profile_id h
    · exact sanCheckDnsTail_ok_calls env PrincType.service
        (altPrincipal PrincType.service principal name)
        (env.serviceShow (altPrincipal PrincType.service principal name))
        ca profile_id h
  | krb5PrincipalName n =>
    simp only [sanCheckOne]
    split
    · rfl
    · rfl
  | upn n =>
    simp only [sanCheckOne]
    split
    · rfl
    · rfl
  | rfc822Name v =>
    cases ptype
    · simp only [sanCheckOne]
      split
      · rfl
      · rfl
    · rfl
    · rfl
  | otherKind k => rfl

theorem sanCheckLoop_ok_calls (env : ReqEnv) (ptype : PrincType)
    (principal : Principal) (principal_obj : Entry) (ca profile_id : String)
    (gns : List GeneralName)
    (h : (sanCheckLoop env false ptype principal principal_obj ca profile_id
      gns).1 = .ok ()) :
    (sanCheckLoop env false ptype principal principal_obj ca profile_id
      gns).2
      = (dnsNamesOf gns).map
          (fun n => (ptype, altPrincipal ptype principal n)) := by
  induction gns with
  | nil => rfl
  | cons gn rest ih =>
    rw [sanCheckLoop] at h ⊢
    cases hone : sanCheckOne env false ptype principal principal_obj
        ca profile_id gn with
    | mk r calls =>
      cases r with
      | error e =>
        rw [hone] at h
        simp only [] at h
        exact absurd h (by simp)
      | ok u =>
        cases u
        rw [hone] at h
        simp only [] at h ⊢
        have hcalls := sanCheckOne_ok_calls env ptype principal
          principal_obj ca profile_id gn (by rw [hone])
        rw [hone] at hcalls
        simp only [] at hcalls
        subst hcalls
        rw [ih h]
        cases gn <;> simp [dnsNamesOf, List.filterMap_cons]

theorem sanCheckOne_false_call (env : ReqEnv) (b : Bool) (ptype : PrincType)
    (principal : Principal) (principal_obj : Entry) (ca profile_id : String)
    (gn : GeneralName) (c : PrincType × Principal)
    (hc : c ∈ (sanCheckOne env b ptype principal principal_obj ca profile_id
      gn).2)
    (hf : env.aclEvaluate c.1 c.2 ca profile_id = false) :
    (sanCheckOne env b ptype principal principal_obj ca profile_id gn).1
      = .error .aciError := by
  cases gn with
  | dnsName name =>
    cases ptype
    · exact absurd hc (by simp [sanCheckOne])
    · exact sanCheckDnsTail_false_call env b PrincType.host
        (altPrincipal PrincType.host principal name) (env.hostShow name)
        ca profile_id c hc hf
    · exact sanCheckDnsTail_false_call env b PrincType.service
        (altPrincipal PrincType.service principal name)
        (env.serviceShow (altPrincipal PrincType.service principal name))
        ca profile_id c hc hf
  | krb5PrincipalName n =>
    simp only [sanCheckOne] at hc
    revert hc
    split <;> simp
  | upn n =>
    simp only [sanCheckOne] at hc
    revert hc
    split <;> simp
  | rfc822Name v =>
    cases ptype
    · simp only [sanCheckOne] at hc
      revert hc
      split <;> simp
    · exact absurd hc (by simp [sanCheckOne])
    · exact absurd hc (by simp [sanCheckOne])
  | otherKind k =>
    exact absurd hc (by simp [sanCheckOne])

theorem sanCheckLoop_false_call (env : ReqEnv) (b : Bool) (ptype : PrincType)
    (principal : Principal) (principal_obj : Entry) (ca profile_id : String)
    (gns : List GeneralName) (c : PrincType × Principal)
    (hc : c ∈ (sanCheckLoop env b ptype principal principal_obj ca profile_id
      gns).2)
    (hf : env.aclEvaluate c.1 c.2 ca profile_id = false) :
    (sanCheckLoop env b ptype principal principal_obj ca profile_id gns).1
      = .error .aciError := by
  induction gns with
  | nil => exact absurd hc (by simp [sanCheckLoop])
  | cons gn rest ih =>
    rw [sanCheckLoop] at hc ⊢
    cases hone : sanCheckOne env b ptype principal principal_obj
        ca profile_id gn with
    | mk r calls =>
      cases r with
      | error e =>
        rw [hone] at hc
        simp only [] at hc ⊢
        have h1 := sanCheckOne_false_call env b ptype principal principal_obj
          ca profile_id gn c (by rw [hone]; exact hc) hf
        rw [hone] at h1
        simp only [] at h1
        injection h1 with he
        subst he
        rfl
      | ok u =>
        cases u
        rw [hone] at hc
        simp only [] at hc ⊢
        rw [List.mem_append] at hc
        cases hc with
        | inl hc1 =>
          have h1 := sanCheckOne_false_call env b ptype principal
            principal_obj ca profile_id gn c (by rw [hone]; exact hc1) hf
          rw [hone] at h1
          exact absurd h1 (by simp)
        | inr hc2 =>
          exact ih hc2

/-! ## Lemmas about the phases of cert_request -/

theorem certRequestIssuePhase_aclCalls (env : ReqEnv) (profile_id : String)
    (acl : List (PrincType × Principal)) (principal_obj : Entry) :
    (certRequestIssuePhase env profile_id acl principal_obj).aclCalls
      = acl := by
  rw [certRequestIssuePhase]
  repeat' split
  all_goals rfl

theorem certRequestEntryPhase_bypass_calls (env : ReqEnv) (opts : ReqOpts)
    (csr_obj : ParsedCsr) :
    (certRequestEntryPhase env opts csr_obj true []).aclCalls = [] := by
  rw [certRequestEntryPhase]
  cases hlk : certRequestEntryLookup env opts with
  | error e => rfl
  | ok principal_obj =>
    simp only []
    cases hcn : csr_obj.cns.getLast? with
    | none => rfl
    | some cn =>
      simp only []
      cases hck : cnCheck opts.principal principal_obj csr_obj cn with
      | some e => rfl
      | none =>
        simp only []
        by_cases hw : env.canWrite principal_obj.dn
        · simp only [hw, Bool.not_true, Bool.false_eq_true, if_false]
          have hl := sanCheckLoop_bypass_calls env opts.principal.ptype
            opts.principal principal_obj opts.cacn
            (opts.profile_id.getD env.defaultProfile) (csr_obj.san.getD [])
          cases hloop : sanCheckLoop env true opts.principal.ptype
              opts.principal principal_obj opts.cacn
              (opts.profile_id.getD env.defaultProfile)
              (csr_obj.san.getD []) with
          | mk r calls =>
            rw [hloop] at hl
            simp only [] at hl
            subst hl
            cases r with
            | error e => rfl
            | ok u =>
              rw [certRequestIssuePhase_aclCalls]
              rfl
        · simp only [Bool.not_eq_true] at hw
          rw [hw]
          rfl

theorem certRequestEntryPhase_ok_calls (env : ReqEnv) (opts : ReqOpts)
    (csr_obj : ParsedCsr) (aclPrimary : List (PrincType × Principal))
    (rid : Nat)
    (h : (certRequestEntryPhase env opts csr_obj false aclPrimary).outcome
      = .ok rid) :
    (certRequestEntryPhase env opts csr_obj false aclPrimary).aclCalls
      = aclPrimary ++ (dnsNamesOf (csr_obj.san.getD [])).map
          (fun n => (opts.principal.ptype,
            altPrincipal opts.principal.ptype opts.principal n)) := by
  rw [certRequestEntryPhase] at h ⊢
  cases hlk : certRequestEntryLookup env opts with
  | error e =>
    rw [hlk] at h
    simp only [] at h
    exact absurd h (by simp)
  | ok principal_obj =>
    rw [hlk] at h
    simp only [] at h
    simp only []
    cases hcn : csr_obj.cns.getLast? with
    | none =>
      rw [hcn] at h
      simp only [] at h
      exact absurd h (by simp)
    | some cn =>
      rw [hcn] at h
      simp only [] at h
      simp only []
      cases hck : cnCheck opts.principal principal_obj csr_obj cn with
      | some e =>
        rw [hck] at h
        simp only [] at h
        exact absurd h (by simp)
      | none =>
        rw [hck] at h
        simp only [] at h
        simp only []
        by_cases hw : env.canWrite principal_obj.dn
        · simp only [hw, Bool.not_true, Bool.false_eq_true, if_false] at h ⊢
          cases hloop : sanCheckLoop env false opts.principal.ptype
              opts.principal principal_obj opts.cacn
              (opts.profile_id.getD env.defaultProfile)
              (csr_obj.san.getD []) with
          | mk r calls =>
            rw [hloop] at h
            cases r with
            | error e =>
              simp only [] at h
              exact absurd h (by simp)
            | ok u =>
              cases u
              simp only [] at h ⊢
              rw [certRequestIssuePhase_aclCalls]
              have hcalls := sanCheckLoop_ok_calls env opts.principal.ptype
                opts.principal principal_obj opts.cacn
                (opts.profile_id.getD env.defaultProfile)
                (csr_obj.san.getD []) (by rw [hloop])
              rw [hloop] at hcalls
              simp only [] at hcalls
              subst hcalls
              rfl
        · simp only [Bool.not_eq_true] at hw
          rw [hw] at h
          simp at h

theorem certRequestEntryPhase_false_call (env : ReqEnv) (opts : ReqOpts)
    (csr_obj : ParsedCsr) (b : Bool)
    (aclPrimary : List (PrincType × Principal)) (c : PrincType × Principal)
    (hprim : ∀ x ∈ aclPrimary, env.aclEvaluate x.1 x.2 opts.cacn
      (opts.profile_id.getD env.defaultProfile) = true)
    (hc : c ∈ (certRequestEntryPhase env opts csr_obj b aclPrimary).aclCalls)
    (hf : env.aclEvaluate c.1 c.2 opts.cacn
      (opts.profile_id.getD env.defaultProfile) = false) :
    (certRequestEntryPhase env opts csr_obj b aclPrimary).outcome
      = .error .aciError := by
  have hnp : c ∉ aclPrimary := by
    intro hmem
    have hx := hprim c hmem
    rw [hf] at hx
    exact absurd hx (by simp)
  rw [certRequestEntryPhase] at hc ⊢
  cases hlk : certRequestEntryLookup env opts with
  | error e =>
    rw [hlk] at hc
    simp only [] at hc
    exact absurd hc hnp
  | ok principal_obj =>
    rw [hlk] at hc
    simp only [] at hc
    simp only []
    cases hcn : csr_obj.cns.getLast? with
    | none =>
      rw [hcn] at hc
      simp only [] at hc
      exact absurd hc hnp
    | some cn =>
      rw [hcn] at hc
      simp only [] at hc
      simp only []
      cases hck : cnCheck opts.principal principal_obj csr_obj cn with
      | some e =>
        rw [hck] at hc
        simp only [] at hc
        exact absurd hc hnp
      | none =>
        rw [hck] at hc
        simp only [] at hc
        simp only []
        by_cases hw : env.canWrite principal_obj.dn
        · simp only [hw, Bool.not_true, Bool.false_eq_true, if_false]
            at hc ⊢
          cases hloop : sanCheckLoop env b opts.principal.ptype
              opts.principal principal_obj opts.cacn
              (opts.profile_id.getD env.defaultProfile)
              (csr_obj.san.getD []) with
          | mk r calls =>
            rw [hloop] at hc
            cases r with
            | error e =>
              simp only [] at hc ⊢
              rw [List.mem_append] at hc
              cases hc with
              | inl h1 => exact absurd h1 hnp
              | inr h2 =>
                have h3 := sanCheckLoop_false_call env b
                  opts.principal.ptype opts.principal principal_obj
                  opts.cacn (opts.profile_id.getD env.defaultProfile)
                  (csr_obj.san.getD []) c (by rw [hloop]; exact h2) hf
                rw [hloop] at h3
                simp only [] at h3
                injection h3 with he
                subst he
                rfl
            | ok u =>
              cases u
              simp only [] at hc ⊢
              rw [certRequestIssuePhase_aclCalls] at hc
              rw [List.mem_append] at hc
              cases hc with
              | inl h1 => exact absurd h1 hnp
              | inr h2 =>
                have h3 := sanCheckLoop_false_call env b
                  opts.principal.ptype opts.principal principal_obj
                  opts.cacn (opts.profile_id.getD env.defaultProfile)
                  (csr_obj.san.getD []) c (by rw [hloop]; exact h2) hf
                rw [hloop] at h3
                simp only [] at h3
                exact absurd h3 (by simp)
        · simp only [Bool.not_eq_true] at hw
          rw [hw]
          rfl

theorem certRequest_bypass_calls (env : ReqEnv) (csr : String)
    (opts : ReqOpts)
    (hb : env.hasPermission "request certificate ignore caacl" = true) :
    (certRequest env csr opts).aclCalls = [] := by
  rw [certRequest]
  cases hca : env.caEnabled
  · rfl
  · simp only [Bool.not_true, Bool.false_eq_true, if_false]
    cases hfind : env.cas.find? (fun c => c.cn = opts.cacn) with
    | none => rfl
    | some ca_obj =>
      simp only []
      by_cases hacc : (!selfOrHostBind env opts &&
          !env.hasPermission "request certificate") = true
      · rw [if_pos hacc]
      · rw [if_neg hacc]
        simp only [hb, Bool.not_true, Bool.false_and, Bool.false_eq_true,
          if_false, if_true]
        cases hcsr : env.loadCsr csr with
        | none => rfl
        | some csr_obj =>
          simp only []
          by_cases hsan : (!selfOrHostBind env opts && csr_obj.san.isSome &&
              !env.hasPermission "request certificate with subjectaltname")
              = true
          · rw [if_pos hsan]
          · rw [if_neg hsan]
            exact certRequestEntryPhase_bypass_calls env opts csr_obj

theorem certRequest_ok_calls (env : ReqEnv) (csr : String) (opts : ReqOpts)
    (hb : env.hasPermission "request certificate ignore caacl" = false)
    (rid : Nat) (csr_obj : ParsedCsr)
    (hout : (certRequest env csr opts).outcome = .ok rid)
    (hcsr : env.loadCsr csr = some csr_obj) :
    (certRequest env csr opts).aclCalls =
      (opts.principal.ptype, opts.principal) ::
        (dnsNamesOf (csr_obj.san.getD [])).map
          (fun n => (opts.principal.ptype,
            altPrincipal opts.principal.ptype opts.principal n)) := by
  rw [certRequest] at hout ⊢
  cases hca : env.caEnabled
  · rw [hca] at hout
    simp at hout
  · rw [hca] at hout
    simp only [Bool.not_true, Bool.false_eq_true, if_false] at hout ⊢
    cases hfind : env.cas.find? (fun c => c.cn = opts.cacn) with
    | none =>
      rw [hfind] at hout
      simp at hout
    | some ca_obj =>
      rw [hfind] at hout
      simp only [] at hout
      simp only []
      by_cases hacc : (!selfOrHostBind env opts &&
          !env.hasPermission "request certificate") = true
      · rw [if_pos hacc] at hout
        simp at hout
      · rw [if_neg hacc] at hout ⊢
        simp only [hb, Bool.not_false, Bool.true_and, Bool.false_eq_true,
          if_false] at hout ⊢
        cases heval : env.aclEvaluate opts.principal.ptype opts.principal
            opts.cacn (opts.profile_id.getD env.defaultProfile)
        · rw [heval] at hout
          simp at hout
        · try rw [heval] at hout
          try rw [heval]
          simp only [Bool.not_true, Bool.false_eq_true, if_false]
            at hout ⊢
          rw [hcsr] at hout ⊢
          simp only [] at hout
          simp only []
          by_cases hsan : (!selfOrHostBind env opts && csr_obj.san.isSome &&
              !env.hasPermission "request certificate with subjectaltname")
              = true
          · rw [if_pos hsan] at hout
            simp at hout
          · rw [if_neg hsan] at hout ⊢
            rw [certRequestEntryPhase_ok_calls env opts csr_obj
              [(opts.principal.ptype, opts.principal)] rid hout]
            rfl

theorem certRequest_false_call (env : ReqEnv) (csr : String)
    (opts : ReqOpts) (c : PrincType × Principal)
    (hc : c ∈ (certRequest env csr opts).aclCalls)
    (hf : env.aclEvaluate c.1 c.2 opts.cacn
      (opts.profile_id.getD env.defaultProfile) = false) :
    (certRequest env csr opts).outcome = .error .aciError := by
  by_cases hb : env.hasPermission "request certificate ignore caacl" = true
  · rw [certRequest_bypass_calls env csr opts hb] at hc
    exact absurd hc (by simp)
  · have hb' : env.hasPermission "request certificate ignore caacl"
        = false := by simpa using hb
    rw [certRequest] at hc ⊢
    cases hca : env.caEnabled
    · rw [hca] at hc
      simp at hc
    · rw [hca] at hc
      simp only [Bool.not_true, Bool.false_eq_true, if_false] at hc ⊢
      cases hfind : env.cas.find? (fun x => x.cn = opts.cacn) with
      | none =>
        rw [hfind] at hc
        simp at hc
      | some ca_obj =>
        rw [hfind] at hc
        simp only [] at hc
        simp only []
        by_cases hacc : (!selfOrHostBind env opts &&
            !env.hasPermission "request certificate") = true
        · rw [if_pos hacc] at hc
          simp at hc
        · rw [if_neg hacc] at hc ⊢
          simp only [hb', Bool.not_false, Bool.true_and, Bool.false_eq_true,
            if_false] at hc ⊢
          cases heval : env.aclEvaluate opts.principal.ptype opts.principal
              opts.cacn (opts.profile_id.getD env.defaultProfile)
          · rfl
          · try rw [heval] at hc
            try rw [heval]
            simp only [Bool.not_true, Bool.false_eq_true, if_false] at hc ⊢
            have hprim : ∀ x ∈ [(opts.principal.ptype, opts.principal)],
                env.aclEvaluate x.1 x.2 opts.cacn
                  (opts.profile_id.getD env.defaultProfile) = true := by
              intro x hx
              simp only [List.mem_singleton] at hx
              subst hx
              exact heval
            cases hcsr : env.loadCsr csr with
            | none =>
              rw [hcsr] at hc
              simp only [] at hc
              simp only [List.mem_singleton] at hc
              subst hc
              have hf' : env.aclEvaluate opts.principal.ptype opts.principal
                  opts.cacn (opts.profile_id.getD env.defaultProfile)
                  = false := hf
              rw [hf'] at heval
              exact absurd heval (by simp)
            | some csr_obj =>
              rw [hcsr] at hc
              simp only [] at hc
              simp only []
              by_cases hsan : (!selfOrHostBind env opts && csr_obj.san.isSome
                  && !env.hasPermission
                    "request certificate with subjectaltname") = true
              · rw [if_pos hsan]
              · rw [if_neg hsan] at hc ⊢
                exact certRequestEntryPhase_false_call env opts csr_obj false
                  [(opts.principal.ptype, opts.principal)] c hprim hc hf

/-! ## C4: CA-ACL bypass and per-alias policy evaluation -/

/-- C4: in `cert_request`, when the bind principal holds the
"request certificate ignore caacl" permission the CA-ACL policy engine
is never consulted (the list of `acl_evaluate` invocations is empty);
otherwise, on every call that succeeds, `acl_evaluate` was invoked once
for the primary principal and then once, independently, for the
alternate principal derived from each DNSName SAN entry, in order; and
whenever a consulted verdict is false the call aborts with
`ACIError`. -/
theorem cert_request_caacl_policy (env : ReqEnv) (csr : String)
    (opts : ReqOpts) :
    (env.hasPermission "request certificate ignore caacl" = true →
      (certRequest env csr opts).aclCalls = []) ∧
    (env.hasPermission "request certificate ignore caacl" = false →
      ∀ rid csr_obj, (certRequest env csr opts).outcome = .ok rid →
        env.loadCsr csr = some csr_obj →
        (certRequest env csr opts).aclCalls =
          (opts.principal.ptype, opts.principal) ::
            (dnsNamesOf (csr_obj.san.getD [])).map
              (fun n => (opts.principal.ptype,
                altPrincipal opts.principal.ptype opts.principal n))) ∧
    (∀ c ∈ (certRequest env csr opts).aclCalls,
      env.aclEvaluate c.1 c.2 opts.cacn
        (opts.profile_id.getD env.defaultProfile) = false →
      (certRequest env csr opts).outcome = .error .aciError) :=
  ⟨fun hb => certRequest_bypass_calls env csr opts hb,
   fun hb rid csr_obj hout hcsr =>
     certRequest_ok_calls env csr opts hb rid csr_obj hout hcsr,
   fun c hc hf => certRequest_false_call env csr opts c hc hf⟩

theorem cert_request_caacl_policy_witness :
    (certRequest envReqBypass "csr" optsReq).aclCalls = [] ∧
    (certRequest envReq "csr" optsReq).aclCalls =
      (optsReq.principal.ptype, optsReq.principal) ::
        (dnsNamesOf (reqCsrObj.san.getD [])).map
          (fun n => (optsReq.principal.ptype,
            altPrincipal optsReq.principal.ptype optsReq.principal n)) ∧
    (certRequest envReqDeny "csr" optsReq).outcome = .error .aciError := by
  refine ⟨(cert_request_caacl_policy envReqBypass "csr" optsReq).1
      (by decide),
    (cert_request_caacl_policy envReq "csr" optsReq).2.1 (by decide) 42
      reqCsrObj (by rfl) rfl,
    (cert_request_caacl_policy envReqDeny "csr" optsReq).2.2
      (optsReq.principal.ptype, optsReq.principal) (by decide) (by rfl)⟩

/-! ## C6: unknown DNSName SAN entries -/

/-- A DNSName SAN entry naming a host or service without a directory
entry fails its SAN check with `NotFound`. -/
theorem sanCheckOne_dns_unknown (env : ReqEnv) (b : Bool)
    (principal : Principal) (principal_obj : Entry)
    (ca profile_id n : String)
    (hdns : (principal.ptype = .host ∧ env.hostShow n = none) ∨
      (principal.ptype = .service ∧
        env.serviceShow (altPrincipal PrincType.service principal n)
          = none)) :
    (sanCheckOne env b principal.ptype principal principal_obj ca profile_id
      (.dnsName n)).1 = .error .notFound := by
  rcases hdns with ⟨hpt, hshow⟩ | ⟨hpt, hshow⟩
  · rw [hpt]
    simp only [sanCheckOne]
    rw [hshow]
    rfl
  · rw [hpt]
    simp only [sanCheckOne]
    rw [hshow]
    rfl

/-- If every SAN entry before `gn` passes and `gn` itself fails with
`NotFound`, the whole SAN loop fails with `NotFound`. -/
theorem sanCheckLoop_error_of_prefix (env : ReqEnv) (b : Bool)
    (ptype : PrincType) (principal : Principal) (principal_obj : Entry)
    (ca profile_id : String) (pre : List GeneralName) (gn : GeneralName)
    (post : List GeneralName)
    (hpre : ∀ g ∈ pre, (sanCheckOne env b ptype principal principal_obj
      ca profile_id g).1 = .ok ())
    (hgn : (sanCheckOne env b ptype principal principal_obj ca profile_id
      gn).1 = .error .notFound) :
    (sanCheckLoop env b ptype principal principal_obj ca profile_id
      (pre ++ gn :: post)).1 = .error .notFound := by
  induction pre with
  | nil =>
    rw [List.nil_append, sanCheckLoop]
    cases hone : sanCheckOne env b ptype principal principal_obj ca
        profile_id gn with
    | mk r calls =>
      rw [hone] at hgn
      cases r with
      | error e =>
        simp only [] at hgn ⊢
        exact hgn
      | ok u =>
        simp only [] at hgn
        exact absurd hgn (by simp)
  | cons g pre ih =>
    rw [List.cons_append, sanCheckLoop]
    have hg := hpre g (by simp)
    cases hone : sanCheckOne env b ptype principal principal_obj ca
        profile_id g with
    | mk r calls =>
      rw [hone] at hg
      cases r with
      | error e =>
        simp only [] at hg
        exact absurd hg (by simp)
      | ok u =>
        simp only []
        exact ih (fun x hx => hpre x (by simp [hx]))

/-- The entry phase propagates a `NotFound` from the SAN loop, without
invoking the CA backend. -/
theorem certRequestEntryPhase_loop_notFound (env : ReqEnv) (opts : ReqOpts)
    (csr_obj : ParsedCsr) (b : Bool)
    (aclPrimary : List (PrincType × Principal)) (principal_obj : Entry)
    (cn : String)
    (hlk : certRequestEntryLookup env opts = .ok principal_obj)
    (hcn : csr_obj.cns.getLast? = some cn)
    (hck : cnCheck opts.principal principal_obj csr_obj cn = none)
    (hw : env.canWrite principal_obj.dn = true)
    (hloop : (sanCheckLoop env b opts.principal.ptype opts.principal
      principal_obj opts.cacn (opts.profile_id.getD env.defaultProfile)
      (csr_obj.san.getD [])).1 = .error .notFound) :
    (certRequestEntryPhase env opts csr_obj b aclPrimary).outcome
        = .error .notFound ∧
      (certRequestEntryPhase env opts csr_obj b aclPrimary).raRequested
        = false := by
  rw [certRequestEntryPhase, hlk]
  simp only []
  rw [hcn]
  simp only []
  rw [hck]
  simp only []
  rw [hw]
  simp only [Bool.not_true, Bool.false_eq_true, if_false]
  cases hl : sanCheckLoop env b opts.principal.ptype opts.principal
      principal_obj opts.cacn (opts.profile_id.getD env.defaultProfile)
      (csr_obj.san.getD []) with
  | mk r calls =>
    rw [hl] at hloop
    cases r with
    | error e =>
      simp only [] at hloop
      injection hloop with he
      subst he
      exact ⟨rfl, rfl⟩
    | ok u =>
      simp only [] at hloop
      exact absurd hloop (by simp)

/-- C6: a `cert_request` whose CSR carries a DNSName SAN entry naming a
host or service with no directory entry fails with `NotFound` — even for
a caller holding every permission and write right, with every other
gate passing — and the CA backend is never asked to issue a
certificate. -/
theorem cert_request_unknown_dnsname (env : ReqEnv) (csr : String)
    (opts : ReqOpts) (csr_obj : ParsedCsr) (principal_obj : Entry)
    (cn : String) (pre post : List GeneralName) (n : String)
    (hP : ∀ s, env.hasPermission s = true)
    (hca : env.caEnabled = true)
    (hfind : (env.cas.find? (fun c => c.cn = opts.cacn)).isSome = true)
    (hcsr : env.loadCsr csr = some csr_obj)
    (hlk : certRequestEntryLookup env opts = .ok principal_obj)
    (hcn : csr_obj.cns.getLast? = some cn)
    (hck : cnCheck opts.principal principal_obj csr_obj cn = none)
    (hw : env.canWrite principal_obj.dn = true)
    (hsan : csr_obj.san = some (pre ++ GeneralName.dnsName n :: post))
    (hpre : ∀ g ∈ pre, (sanCheckOne env true opts.principal.ptype
      opts.principal principal_obj opts.cacn
      (opts.profile_id.getD env.defaultProfile) g).1 = .ok ())
    (hdns : (opts.principal.ptype = .host ∧ env.hostShow n = none) ∨
      (opts.principal.ptype = .service ∧
        env.serviceShow (altPrincipal PrincType.service opts.principal n)
          = none)) :
    (certRequest env csr opts).outcome = .error .notFound ∧
    (certRequest env csr opts).raRequested = false := by
  obtain ⟨ca_obj, hfo⟩ := Option.isSome_iff_exists.mp hfind
  rw [certRequest, hca]
  simp only [Bool.not_true, Bool.false_eq_true, if_false]
  rw [hfo]
  simp only []
  rw [hP "request certificate"]
  simp only [Bool.not_true, Bool.and_false, Bool.false_eq_true, if_false]
  rw [hP "request certificate ignore caacl"]
  simp only [Bool.not_true, Bool.false_and, Bool.false_eq_true, if_false]
  rw [hcsr]
  simp only []
  rw [hP "request certificate with subjectaltname"]
  simp only [Bool.not_true, Bool.and_false, Bool.false_eq_true, if_false]
  refine certRequestEntryPhase_loop_notFound env opts csr_obj true _
    principal_obj cn hlk hcn hck hw ?_
  have hgd : csr_obj.san.getD [] = pre ++ GeneralName.dnsName n :: post := by
    rw [hsan]
    rfl
  rw [hgd]
  exact sanCheckLoop_error_of_prefix env true opts.principal.ptype
    opts.principal principal_obj opts.cacn
    (opts.profile_id.getD env.defaultProfile) pre (GeneralName.dnsName n)
    post hpre
    (sanCheckOne_dns_unknown env true opts.principal principal_obj
      opts.cacn (opts.profile_id.getD env.defaultProfile) n hdns)

theorem cert_request_unknown_dnsname_witness :
    (certRequest envReqUnknownAlt "csr" optsReq).outcome
        = .error .notFound ∧
    (certRequest envReqUnknownAlt "csr" optsReq).raRequested = false := by
  refine cert_request_unknown_dnsname envReqUnknownAlt "csr" optsReq
    reqCsrObj ⟨"cn=web,dc=x", [], []⟩ "web.example" [] []
    "alt.example" (fun s => rfl) rfl (by decide) rfl (by decide) rfl
    (by decide) rfl rfl ?_ ?_
  · intro g hg
    exact absurd hg (by simp)
  · exact Or.inr ⟨rfl, by decide⟩

/-! ## C5: storing the issued certificate -/

/-- C5 counterexample: a successful `cert_request` in the current server
plugin, for a service whose entry already caches `OLDCERT`, under a
profile configured to store issued certificates, leaves *two*
certificate values on the entry — the new one is appended through
`addattr` and the old one is neither revoked nor cleared (the model has
no revocation step because `cert_request.execute` has none). -/
theorem cert_request_store_append_counterexample :
    (certRequest envReqStore "csr" optsReq).outcome = .ok 42 ∧
    (certRequest envReqStore "csr" optsReq).finalEntry =
      some ⟨"cn=web,dc=x", [], ["OLDCERT", "NEWCERT"]⟩ := by
  exact ⟨by rfl, by rfl⟩

/-- C5 (amended): in the current server plugin, a successful
`cert_request` under a store profile *appends* the issued certificate to
the owning entry's certificate attribute via an attribute-level add, so
a previously cached value survives alongside the new one and nothing is
revoked; revoke-then-replace holds only in the legacy ipalib plugin,
whose certificate handling leaves exactly one cached value — the new
certificate — and revokes the old serial exactly when the CA implements
`get` and `revoke` and the old certificate was not already revoked. -/
theorem cert_request_store_rules (env : ReqEnv) (profile_id : String)
    (acl : List (PrincType × Principal)) (principal_obj : Entry)
    (lenv : LegacyEnv) (c0 : String) (rest : List String) :
    (∀ res profile cert, env.raRequest = .ok res →
      env.profileShow profile_id = some profile →
      profile.storeIssued = true → res.certificate = some cert →
      (certRequestIssuePhase env profile_id acl principal_obj).finalEntry
        = some (applyAddattr principal_obj cert)) ∧
    (∀ cert, lenv.raRequestCert = some cert →
      (legacyCertHandling lenv (c0 :: rest)).finalCerts = [cert] ∧
      (legacyCertHandling lenv (c0 :: rest)).revokedSerials =
        (if lenv.certShowImplemented &&
            !lenv.certRevoked (lenv.serialOf c0) &&
            lenv.revokeImplemented then [lenv.serialOf c0] else [])) := by
  constructor
  · intro res profile cert hra hprof hstore hcert
    rw [certRequestIssuePhase, hra]
    simp only []
    rw [hprof]
    simp only []
    rw [hcert]
    simp only []
    rw [hstore]
    simp only [if_true]
  · intro cert hcert
    rw [legacyCertHandling]
    simp only []
    rw [hcert]
    simp only []
    refine ⟨by simp, ?_⟩
    cases hs : lenv.certShowImplemented <;>
      cases hr : lenv.certRevoked (lenv.serialOf c0) <;>
      cases hv : lenv.revokeImplemented <;>
      simp [hs, hr, hv]

theorem cert_request_store_rules_witness :
    (certRequestIssuePhase envReqStore "default" []
      ⟨"cn=web,dc=x", [], ["OLDCERT"]⟩).finalEntry
      = some (applyAddattr ⟨"cn=web,dc=x", [], ["OLDCERT"]⟩ "NEWCERT") ∧
    ((legacyCertHandling lenvDemo ["OLD"]).finalCerts = ["NEW"] ∧
      (legacyCertHandling lenvDemo ["OLD"]).revokedSerials =
        (if lenvDemo.certShowImplemented &&
            !lenvDemo.certRevoked (lenvDemo.serialOf "OLD") &&
            lenvDemo.revokeImplemented
          then [lenvDemo.serialOf "OLD"] else [])) := by
  refine ⟨(cert_request_store_rules envReqStore "default" []
      ⟨"cn=web,dc=x", [], ["OLDCERT"]⟩ lenvDemo "OLD" []).1
      ⟨42, some "NEWCERT"⟩ ⟨true⟩ "NEWCERT" rfl rfl rfl rfl,
    (cert_request_store_rules envReqStore "default" []
      ⟨"cn=web,dc=x", [], ["OLDCERT"]⟩ lenvDemo "OLD" []).2 "NEW" rfl⟩

/-! ## Lemmas about findSub and occurIdxs (for normalize_csr, C9) -/

theorem isPrefixOf_nil_of_ne (nd : List Char) (h : nd ≠ []) :
    nd.isPrefixOf ([] : List Char) = false := by
  cases nd with
  | nil => exact absurd rfl h
  | cons c t => rfl

theorem occursAt_le_length (nd hay : List Char) (j : Nat) (hnd : nd ≠ [])
    (h : nd.isPrefixOf (hay.drop j) = true) : j ≤ hay.length := by
  by_contra hcon
  have hdrop : hay.drop j = [] := List.drop_eq_nil_of_le (by omega)
  rw [hdrop, isPrefixOf_nil_of_ne nd hnd] at h
  exact Bool.false_ne_true h

theorem findSub_eq_some (nd hay : List Char) (i : Nat)
    (hocc : nd.isPrefixOf (hay.drop i) = true)
    (hmin : ∀ j, j < i → nd.isPrefixOf (hay.drop j) = false) :
    findSub nd hay = some i := by
  induction hay generalizing i with
  | nil =>
    cases i with
    | zero =>
      rw [List.drop_nil] at hocc
      simp [findSub, hocc]
    | succ n =>
      exfalso
      have h0 := hmin 0 (Nat.succ_pos n)
      rw [List.drop_zero] at h0
      rw [List.drop_nil] at hocc
      rw [hocc] at h0
      exact Bool.false_ne_true h0.symm
  | cons c rest ih =>
    cases i with
    | zero =>
      rw [List.drop_zero] at hocc
      simp [findSub, hocc]
    | succ n =>
      have h0 := hmin 0 (Nat.succ_pos n)
      rw [List.drop_zero] at h0
      have hrec : findSub nd rest = some n := by
        refine ih n hocc ?_
        intro j hj
        exact hmin (j + 1) (by omega)
      simp [findSub, h0, hrec]

theorem findSub_eq_none (nd hay : List Char)
    (h : ∀ j, nd.isPrefixOf (hay.drop j) = false) :
    findSub nd hay = none := by
  induction hay with
  | nil =>
    have h0 := h 0
    rw [List.drop_zero] at h0
    simp [findSub, h0]
  | cons c rest ih =>
    have h0 := h 0
    rw [List.drop_zero] at h0
    have hrec := ih (fun j => h (j + 1))
    simp [findSub, h0, hrec]

theorem occurIdxs_unique (nd hay : List Char) (i : Nat) (hnd : nd ≠ [])
    (h : occurIdxs nd hay = [i]) :
    ∀ j, nd.isPrefixOf (hay.drop j) = true → j = i := by
  intro j hj
  have hle := occursAt_le_length nd hay j hnd hj
  have hmem : j ∈ occurIdxs nd hay :=
    List.mem_filter.mpr ⟨List.mem_range.mpr (by omega), hj⟩
  rw [h] at hmem
  simpa using hmem

theorem noOccur_of_occurIdxs_nil (nd hay : List Char) (hnd : nd ≠ [])
    (h : occurIdxs nd hay = []) :
    ∀ j, nd.isPrefixOf (hay.drop j) = false := by
  intro j
  cases hx : nd.isPrefixOf (hay.drop j) with
  | false => rfl
  | true =>
    exfalso
    have hle := occursAt_le_length nd hay j hnd hx
    have hmem : j ∈ occurIdxs nd hay :=
      List.mem_filter.mpr ⟨List.mem_range.mpr (by omega), hx⟩
    rw [h] at hmem
    exact absurd hmem (List.not_mem_nil j)

theorem block_occur_lift (nd pre block post : List Char) (j : Nat) (hnd : nd ≠ [])
    (h : nd.isPrefixOf (block.drop j) = true) :
    nd.isPrefixOf ((pre ++ (block ++ post)).drop (pre.length + j)) = true := by
  have hj : j ≤ block.length := occursAt_le_length nd block j hnd h
  have h1 : (pre ++ (block ++ post)).drop (pre.length + j)
      = (block ++ post).drop j := by
    rw [← List.drop_drop, List.drop_left]
  rw [h1, List.drop_append_of_le_length hj]
  simp only [List.isPrefixOf_iff_prefix] at h ⊢
  exact h.trans (List.prefix_append _ _)

theorem block_noOccur (nd pre block post : List Char) (hnd : nd ≠ [])
    (h : ∀ j, nd.isPrefixOf ((pre ++ (block ++ post)).drop j) = false) :
    ∀ j, nd.isPrefixOf (block.drop j) = false := by
  intro j
  cases hx : nd.isPrefixOf (block.drop j) with
  | false => rfl
  | true =>
    exfalso
    have hlift := block_occur_lift nd pre block post j hnd hx
    rw [h (pre.length + j)] at hlift
    exact Bool.false_ne_true hlift

theorem block_unique (nd pre block post : List Char) (i : Nat) (hnd : nd ≠ [])
    (h : ∀ j, nd.isPrefixOf ((pre ++ (block ++ post)).drop j) = true
      → j = pre.length + i) :
    ∀ j, nd.isPrefixOf (block.drop j) = true → j = i := by
  intro j hx
  have := h (pre.length + j) (block_occur_lift nd pre block post j hnd hx)
  omega

theorem beginMarkerNew_length : beginMarkerNew.length = 39 := rfl

theorem beginMarkerStd_length : beginMarkerStd.length = 35 := rfl

theorem endMarkerNew_length : endMarkerNew.length = 37 := rfl

theorem endMarkerStd_length : endMarkerStd.length = 33 := rfl

theorem normalize_csr_eq_new (csr : List Char) (si ei : Nat)
    (h1 : findSub beginMarkerNew csr = some si)
    (h2 : findSub endMarkerNew csr = some ei) :
    normalize_csr csr = (csr.drop si).take (ei + 37 - si) := by
  simp only [normalize_csr]
  rw [h1, h2]

theorem normalize_csr_eq_std (csr : List Char) (si ei : Nat)
    (h0 : findSub beginMarkerNew csr = none)
    (h0' : findSub endMarkerNew csr = none)
    (h1 : findSub beginMarkerStd csr = some si)
    (h2 : findSub endMarkerStd csr = some ei) :
    normalize_csr csr = (csr.drop si).take (ei + 33 - si) := by
  simp only [normalize_csr]
  rw [h0, h0', h1, h2]

theorem normalize_extract_new (s pre body post : List Char)
    (hs : s = pre ++ beginMarkerNew ++ body ++ endMarkerNew ++ post)
    (hBU : ∀ j, beginMarkerNew.isPrefixOf (s.drop j) = true → j = pre.length)
    (hEU : ∀ j, endMarkerNew.isPrefixOf (s.drop j) = true
      → j = pre.length + 39 + body.length) :
    normalize_csr s = beginMarkerNew ++ body ++ endMarkerNew := by
  have hsR : s = pre ++ (beginMarkerNew ++ (body ++ (endMarkerNew ++ post))) := by
    rw [hs]; simp [List.append_assoc]
  have hoccB : beginMarkerNew.isPrefixOf (s.drop pre.length) = true := by
    rw [hsR, List.drop_left' rfl]
    simp only [List.isPrefixOf_iff_prefix]
    exact List.prefix_append _ _
  have hfB : findSub beginMarkerNew s = some pre.length := by
    refine findSub_eq_some _ _ _ hoccB ?_
    intro j hj
    cases hx : beginMarkerNew.isPrefixOf (s.drop j) with
    | false => rfl
    | true => exact absurd (hBU j hx) (by omega)
  have hoccE : endMarkerNew.isPrefixOf
      (s.drop (pre.length + 39 + body.length)) = true := by
    have hre : s = (pre ++ (beginMarkerNew ++ body)) ++ (endMarkerNew ++ post) := by
      rw [hs]; simp [List.append_assoc]
    have hlen : (pre ++ (beginMarkerNew ++ body)).length
        = pre.length + 39 + body.length := by
      simp only [List.length_append, beginMarkerNew_length]; omega
    rw [hre, List.drop_left' hlen]
    simp only [List.isPrefixOf_iff_prefix]
    exact List.prefix_append _ _
  have hfE : findSub endMarkerNew s = some (pre.length + 39 + body.length) := by
    refine findSub_eq_some _ _ _ hoccE ?_
    intro j hj
    cases hx : endMarkerNew.isPrefixOf (s.drop j) with
    | false => rfl
    | true => exact absurd (hEU j hx) (by omega)
  rw [normalize_csr_eq_new s _ _ hfB hfE]
  rw [hsR, List.drop_left' rfl]
  have hassoc : beginMarkerNew ++ (body ++ (endMarkerNew ++ post))
      = (beginMarkerNew ++ body ++ endMarkerNew) ++ post := by
    simp [List.append_assoc]
  rw [hassoc]
  refine List.take_left' ?_
  simp only [List.length_append, beginMarkerNew_length, endMarkerNew_length]
  omega

theorem normalize_extract_std (s pre body post : List Char)
    (hs : s = pre ++ beginMarkerStd ++ body ++ endMarkerStd ++ post)
    (hBN : ∀ j, beginMarkerNew.isPrefixOf (s.drop j) = false)
    (hEN : ∀ j, endMarkerNew.isPrefixOf (s.drop j) = false)
    (hBU : ∀ j, beginMarkerStd.isPrefixOf (s.drop j) = true → j = pre.length)
    (hEU : ∀ j, endMarkerStd.isPrefixOf (s.drop j) = true
      → j = pre.length + 35 + body.length) :
    normalize_csr s = beginMarkerStd ++ body ++ endMarkerStd := by
  have hsR : s = pre ++ (beginMarkerStd ++ (body ++ (endMarkerStd ++ post))) := by
    rw [hs]; simp [List.append_assoc]
  have hoccB : beginMarkerStd.isPrefixOf (s.drop pre.length) = true := by
    rw [hsR, List.drop_left' rfl]
    simp only [List.isPrefixOf_iff_prefix]
    exact List.prefix_append _ _
  have hfB : findSub beginMarkerStd s = some pre.length := by
    refine findSub_eq_some _ _ _ hoccB ?_
    intro j hj
    cases hx : beginMarkerStd.isPrefixOf (s.drop j) with
    | false => rfl
    | true => exact absurd (hBU j hx) (by omega)
  have hoccE : endMarkerStd.isPrefixOf
      (s.drop (pre.length + 35 + body.length)) = true := by
    have hre : s = (pre ++ (beginMarkerStd ++ body)) ++ (endMarkerStd ++ post) := by
      rw [hs]; simp [List.append_assoc]
    have hlen : (pre ++ (beginMarkerStd ++ body)).length
        = pre.length + 35 + body.length := by
      simp only [List.length_append, beginMarkerStd_length]; omega
    rw [hre, List.drop_left' hlen]
    simp only [List.isPrefixOf_iff_prefix]
    exact List.prefix_append _ _
  have hfE : findSub endMarkerStd s = some (pre.length + 35 + body.length) := by
    refine findSub_eq_some _ _ _ hoccE ?_
    intro j hj
    cases hx : endMarkerStd.isPrefixOf (s.drop j) with
    | false => rfl
    | true => exact absurd (hEU j hx) (by omega)
  rw [normalize_csr_eq_std s _ _
    (findSub_eq_none _ _ hBN) (findSub_eq_none _ _ hEN) hfB hfE]
  rw [hsR, List.drop_left' rfl]
  have hassoc : beginMarkerStd ++ (body ++ (endMarkerStd ++ post))
      = (beginMarkerStd ++ body ++ endMarkerStd) ++ post := by
    simp [List.append_assoc]
  rw [hassoc]
  refine List.take_left' ?_
  simp only [List.length_append, beginMarkerStd_length, endMarkerStd_length]
  omega

/-- **C9.** For an input that contains exactly one correctly delimited
BEGIN/END certificate-request block (legacy NEW pair or standard pair,
each marker occurring exactly once, and for the standard case no NEW
marker occurring at all), surrounded by arbitrary leading and trailing
text, `normalize_csr` returns exactly the enclosed block including its
markers, and applying `normalize_csr` to that block again returns it
unchanged (idempotence). -/
theorem normalize_csr_extracts (pre body post : List Char) :
    (occurIdxs beginMarkerNew
        (pre ++ beginMarkerNew ++ body ++ endMarkerNew ++ post) = [pre.length] →
      occurIdxs endMarkerNew
        (pre ++ beginMarkerNew ++ body ++ endMarkerNew ++ post)
        = [pre.length + 39 + body.length] →
      normalize_csr (pre ++ beginMarkerNew ++ body ++ endMarkerNew ++ post)
          = beginMarkerNew ++ body ++ endMarkerNew ∧
        normalize_csr (beginMarkerNew ++ body ++ endMarkerNew)
          = beginMarkerNew ++ body ++ endMarkerNew) ∧
    (occurIdxs beginMarkerNew
        (pre ++ beginMarkerStd ++ body ++ endMarkerStd ++ post) = [] →
      occurIdxs endMarkerNew
        (pre ++ beginMarkerStd ++ body ++ endMarkerStd ++ post) = [] →
      occurIdxs beginMarkerStd
        (pre ++ beginMarkerStd ++ body ++ endMarkerStd ++ post) = [pre.length] →
      occurIdxs endMarkerStd
        (pre ++ beginMarkerStd ++ body ++ endMarkerStd ++ post)
        = [pre.length + 35 + body.length] →
      normalize_csr (pre ++ beginMarkerStd ++ body ++ endMarkerStd ++ post)
          = beginMarkerStd ++ body ++ endMarkerStd ∧
        normalize_csr (beginMarkerStd ++ body ++ endMarkerStd)
          = beginMarkerStd ++ body ++ endMarkerStd) := by
  constructor
  · intro hB hE
    have hBne : beginMarkerNew ≠ ([] : List Char) := by decide
    have hEne : endMarkerNew ≠ ([] : List Char) := by decide
    have hBU := occurIdxs_unique _ _ _ hBne hB
    have hEU := occurIdxs_unique _ _ _ hEne hE
    refine ⟨normalize_extract_new _ pre body post rfl hBU hEU, ?_⟩
    have hseq : pre ++ beginMarkerNew ++ body ++ endMarkerNew ++ post
        = pre ++ ((beginMarkerNew ++ body ++ endMarkerNew) ++ post) := by
      simp [List.append_assoc]
    rw [hseq] at hBU hEU
    have hBUb := block_unique beginMarkerNew pre
      (beginMarkerNew ++ body ++ endMarkerNew) post 0 hBne
      (by intro j hj; have := hBU j hj; omega)
    have hEUb := block_unique endMarkerNew pre
      (beginMarkerNew ++ body ++ endMarkerNew) post (39 + body.length) hEne
      (by intro j hj; have := hEU j hj; omega)
    refine normalize_extract_new _ [] body [] (by simp) ?_ ?_
    · intro j hj
      have := hBUb j hj
      simpa using this
    · intro j hj
      have := hEUb j hj
      simp only [List.length_nil]
      omega
  · intro hBN hEN hB hE
    have hBne : beginMarkerNew ≠ ([] : List Char) := by decide
    have hEne : endMarkerNew ≠ ([] : List Char) := by decide
    have hBSne : beginMarkerStd ≠ ([] : List Char) := by decide
    have hESne : endMarkerStd ≠ ([] : List Char) := by decide
    have hBNf := noOccur_of_occurIdxs_nil _ _ hBne hBN
    have hENf := noOccur_of_occurIdxs_nil _ _ hEne hEN
    have hBU := occurIdxs_unique _ _ _ hBSne hB
    have hEU := occurIdxs_unique _ _ _ hESne hE
    refine ⟨normalize_extract_std _ pre body post rfl hBNf hENf hBU hEU, ?_⟩
    have hseq : pre ++ beginMarkerStd ++ body ++ endMarkerStd ++ post
        = pre ++ ((beginMarkerStd ++ body ++ endMarkerStd) ++ post) := by
      simp [List.append_assoc]
    rw [hseq] at hBNf hENf hBU hEU
    have hBNb := block_noOccur beginMarkerNew pre
      (beginMarkerStd ++ body ++ endMarkerStd) post hBne hBNf
    have hENb := block_noOccur endMarkerNew pre
      (beginMarkerStd ++ body ++ endMarkerStd) post hEne hENf
    have hBUb := block_unique beginMarkerStd pre
      (beginMarkerStd ++ body ++ endMarkerStd) post 0 hBSne
      (by intro j hj; have := hBU j hj; omega)
    have hEUb := block_unique endMarkerStd pre
      (beginMarkerStd ++ body ++ endMarkerStd) post (35 + body.length) hESne
      (by intro j hj; have := hEU j hj; omega)
    refine normalize_extract_std _ [] body [] (by simp) hBNb hENb ?_ ?_
    · intro j hj
      have := hBUb j hj
      simpa using this
    · intro j hj
      have := hEUb j hj
      simp only [List.length_nil]
      omega

theorem normalize_csr_extracts_witness :
    normalize_csr ("ab".toList ++ beginMarkerNew ++ "x".toList
        ++ endMarkerNew ++ "cd".toList)
      = beginMarkerNew ++ "x".toList ++ endMarkerNew ∧
    normalize_csr ("ab".toList ++ beginMarkerStd ++ "x".toList
        ++ endMarkerStd ++ "cd".toList)
      = beginMarkerStd ++ "x".toList ++ endMarkerStd := by
  refine ⟨((normalize_csr_extracts "ab".toList "x".toList "cd".toList).1
      (by decide) (by decide)).1,
    ((normalize_csr_extracts "ab".toList "x".toList "cd".toList).2
      (by decide) (by decide) (by decide) (by decide)).1⟩

end FreeIpaCert
